import Mathlib

/-! The host pipeline of the OpenCL "getting started" tutorial.

Shallow embedding of `src/main.cpp`: one `main` that enumerates platforms and
devices, lets the user pick one of each, builds the `parallel_add` kernel,
creates three buffers, binds them, launches the kernel over ten work-items
and reads the output buffer back.

* The console is a list of numbers typed by the user (`Env.stdin`); the run
  is *blocked* when `cin >> input` finds that list exhausted.
* The OpenCL runtime (`CL/cl.hpp`) is not part of the repository.  What it
  returns is a parameter of the run (`Env`), and what it does with buffers,
  kernel arguments and launches follows the contracts of the specification.
  `main.cpp` does not define `__CL_ENABLE_EXCEPTIONS`, so every runtime call
  reports failure through a status code and never through an exception.
* The pipeline is written for an arbitrary element type `α` with an addition
  and a zero (`mainWith`). `main` itself runs it on `Float32`, a model of the
  IEEE 754 binary32 data of `float` and `cl_float`: the constants of the host
  arrays are the binary32 data nearest to their decimals, and the kernel's `+`
  is the correctly rounded binary32 addition (round to nearest, ties to even).
* Every runtime call and every console action of `main` is recorded, in
  program order, in the trace of the run.
-/

namespace OpenCLTutorial

/-! ## Constants of the OpenCL and C++ headers -/

/-- Status `CL_SUCCESS` of `CL/cl.h`. -/
def CL_SUCCESS : Int := 0
/-- Status `CL_OUT_OF_RESOURCES` of `CL/cl.h`. -/
def CL_OUT_OF_RESOURCES : Int := -5
/-- Status `CL_INVALID_VALUE` of `CL/cl.h`. -/
def CL_INVALID_VALUE : Int := -30
/-- Status `CL_INVALID_MEM_OBJECT` of `CL/cl.h`. -/
def CL_INVALID_MEM_OBJECT : Int := -38
/-- Status `CL_INVALID_KERNEL` of `CL/cl.h`. -/
def CL_INVALID_KERNEL : Int := -48
/-- Status `CL_INVALID_ARG_INDEX` of `CL/cl.h`. -/
def CL_INVALID_ARG_INDEX : Int := -49
/-- Status `CL_INVALID_KERNEL_ARGS` of `CL/cl.h`. -/
def CL_INVALID_KERNEL_ARGS : Int := -52
/-- Status `CL_INVALID_WORK_GROUP_SIZE` of `CL/cl.h`: the spec's `InvalidWorkSizeError`. -/
def CL_INVALID_WORK_GROUP_SIZE : Int := -54

/-- Bytes of a `cl_int` (`CL/cl_platform.h`: a 32-bit integer). -/
def sizeof_cl_int : Nat := 4
/-- Bytes of a `cl_float` (`CL/cl_platform.h`: a 32-bit float). -/
def sizeof_cl_float : Nat := 4
/-- Bytes of a host `float`, the element type of the three host arrays. -/
def sizeof_float : Nat := 4
/-- Number of values of an `unsigned int`, the type of the variable `input`. -/
def UINT_RANGE : Nat := 2 ^ 32

/-! ## 32-bit floats -/

/-- An IEEE 754 binary32 datum: a NaN, an infinity, or the finite value
`(-1)^neg * m * 2^e`. The finite data of the format are those with
`m < 2^24` and `-149 ≤ e ≤ 104`, written with `2^23 ≤ m` unless `e = -149`
(the zeros and the subnormal numbers). -/
inductive Float32
  | nan
  | inf (neg : Bool)
  | fin (neg : Bool) (m : Nat) (e : Int)
  deriving DecidableEq, Repr

/-- Number of binary digits of `n`, computed with `fuel` halvings at most. -/
def Float32.bits : Nat → Nat → Nat
  | 0, _ => 0
  | fuel + 1, n => if n = 0 then 0 else Float32.bits fuel (n / 2) + 1

/-- Number of binary digits of `n`: `2^(bitLength n - 1) ≤ n < 2^(bitLength n)` for `n > 0`. -/
def Float32.bitLength (n : Nat) : Nat := Float32.bits n n

/-- The binary exponent of the positive fraction `num / den`: the `E` with
`2^E ≤ num / den < 2^(E+1)`. -/
def Float32.exponentOf (num den : Nat) : Int :=
  let e0 : Int := (Float32.bitLength num : Int) - (Float32.bitLength den : Int)
  if 0 ≤ e0 then (if den * 2 ^ e0.toNat ≤ num then e0 else e0 - 1)
  else (if den ≤ num * 2 ^ (-e0).toNat then e0 else e0 - 1)

/-- The binary32 datum nearest to `(-1)^neg * num / den` (`den > 0`), ties to
the even significand: the fraction is cut at the quantum `2^q`, `q` being 23
binary places below its exponent and at least -149; a remainder above half a
quantum, or of half a quantum after an odd significand, rounds up; a
significand that reaches `2^24` moves to the next exponent; a result beyond
the largest finite datum is an infinity. -/
def Float32.round (neg : Bool) (num den : Nat) : Float32 :=
  if num = 0 then Float32.fin neg 0 (-149)
  else
    let q : Int := max (Float32.exponentOf num den - 23) (-149)
    let n : Nat := num * 2 ^ (-q).toNat
    let d : Nat := den * 2 ^ q.toNat
    let k : Nat := n / d
    let r : Nat := n % d
    let k : Nat := if d < 2 * r ∨ (2 * r = d ∧ k % 2 = 1) then k + 1 else k
    if k = 2 ^ 24 then
      (if 104 < q + 1 then Float32.inf neg else Float32.fin neg (2 ^ 23) (q + 1))
    else if 104 < q then Float32.inf neg else Float32.fin neg k q

/-- The integer `(-1)^neg * m`. -/
def Float32.signed (neg : Bool) (m : Nat) : Int := if neg then -(m : Int) else (m : Int)

/-- Binary32 addition, correctly rounded to nearest with ties to even, the `+`
of `float` on the host and in OpenCL C: a NaN operand or the sum of opposite
infinities gives the NaN (NaN payloads are not told apart); an infinity
absorbs a finite operand; the exact sum of two finite data is rounded; an
exact sum of zero is `+0`, except that `(-0) + (-0)` is `-0`. A device that
flushes subnormal numbers to zero is not modelled. -/
def Float32.add : Float32 → Float32 → Float32
  | Float32.nan, _ => Float32.nan
  | _, Float32.nan => Float32.nan
  | Float32.inf s, Float32.inf t => if s = t then Float32.inf s else Float32.nan
  | Float32.inf s, Float32.fin _ _ _ => Float32.inf s
  | Float32.fin _ _ _, Float32.inf t => Float32.inf t
  | Float32.fin n1 m1 e1, Float32.fin n2 m2 e2 =>
    let e : Int := min e1 e2
    let s : Int := Float32.signed n1 (m1 * 2 ^ (e1 - e).toNat)
      + Float32.signed n2 (m2 * 2 ^ (e2 - e).toNat)
    if s = 0 then Float32.fin (n1 && n2) 0 (-149)
    else Float32.round (decide (s < 0)) (s.natAbs * 2 ^ e.toNat) (2 ^ (-e).toNat)

instance : Add Float32 := ⟨Float32.add⟩

instance : Zero Float32 := ⟨Float32.fin false 0 (-149)⟩

/-- The `float` constant written with the decimal value `num / den`: the
binary32 datum nearest to it (`0.1f` is `lit 1 10`, `9.0f` is `lit 9 1`). -/
def Float32.lit (num den : Nat) : Float32 := Float32.round false num den

/-- The rational value of a finite datum. -/
def Float32.toRat : Float32 → Option ℚ
  | Float32.fin neg m e => some ((if neg then -1 else 1) * (m : ℚ) * 2 ^ e)
  | _ => none

/-! ## Data model -/

/-- The three device buffers of `main` (lines 102-104). -/
inductive BufferName
  | clBufferA
  | clBufferB
  | clOutput
  deriving DecidableEq, Repr

/-- The three host arrays of `main` (lines 96-98). -/
inductive HostArray
  | cpuArrayA
  | cpuArrayB
  | cpuOutput
  deriving DecidableEq, Repr

/-- Access mode of a buffer: `CL_MEM_READ_WRITE`, `CL_MEM_WRITE_ONLY`, `CL_MEM_READ_ONLY`. -/
inductive Access
  | readWrite
  | writeOnly
  | readOnly
  deriving DecidableEq, Repr

/-- The `cl_mem_flags` used by `main`: an access mode, with or without `CL_MEM_COPY_HOST_PTR`. -/
structure MemFlags where
  access : Access
  copyHostPtr : Bool
  deriving DecidableEq, Repr

/-- Lines written to `cout`. -/
inductive Msg (α : Type)
  | availablePlatforms
  | platformEntry (number : Nat) (name : String)
  | enterPlatform
  | noSuchPlatform
  | usingPlatform (name : String)
  | availableDevices
  | deviceEntry (number : Nat) (name : String)
  | enterDevice
  | noSuchDevice
  | usingDevice (name : String)
  | compileError (status : Int)
  | resultLine (a b out : Option α)
  deriving DecidableEq, Repr

/-- One action of `main`: a call into the OpenCL runtime or a console action. -/
inductive Event (α : Type)
  | platformGet
  | cout (m : Msg α)
  | cin (n : Nat)
  | selectPlatform (index : Nat)
  | getDevices
  | selectDevice (index : Nat)
  | createContext
  | createProgram
  | build
  | createKernel (name : String)
  | createBuffer (b : BufferName) (flags : MemFlags) (sizeBytes : Nat) (host : Option HostArray)
  | setArg (position : Nat) (b : BufferName)
  | createQueue
  | enqueueNDRangeKernel (globalSize localSize : Nat)
  | enqueueReadBuffer (b : BufferName) (blocking : Bool) (offset sizeBytes : Nat) (dst : HostArray)
  | pause
  deriving DecidableEq, Repr

/-- What the world outside `main` supplies to one run. -/
structure Env (α : Type) where
  /-- Names of the platforms returned by `Platform::get`. -/
  platforms : List String
  /-- Names of the devices returned by `getDevices` for the platform at a 0-based index. -/
  devices : Nat → List String
  /-- Status returned by `program.build`. -/
  buildStatus : Int
  /-- The numbers typed at the console: the values `cin >> input` stores, in order. -/
  stdin : List Nat
  /-- Content of device memory that nothing has written yet. -/
  uninit : Nat → α

/-! ## The kernel language and the kernel of `source_string` -/

/-- Right-hand sides of kernel statements: `p[i]` for the parameter at position
`p`, where `i` is the global id of the work-item, and sums of two of them. -/
inductive Expr
  | load (param : Nat)
  | add (l r : Expr)
  deriving DecidableEq, Repr

/-- A kernel statement `p[i] = rhs`, `i` the global id of the work-item. -/
structure Store where
  param : Nat
  rhs : Expr
  deriving DecidableEq, Repr

/-- A `__kernel` function: its name, its parameters in declaration order, its statements. -/
structure KernelSource where
  name : String
  params : List String
  body : List Store
  deriving DecidableEq, Repr

/-- The kernel of lines 74-77:
`__kernel void parallel_add(__global float* x, __global float* y, __global float* z)`
with `const int i = get_global_id(0); z[i] = y[i] + x[i];`. -/
def parallel_add : KernelSource :=
  { name := "parallel_add"
    params := ["x", "y", "z"]
    body := [{ param := 2, rhs := Expr.add (Expr.load 1) (Expr.load 0) }] }

/-- The program text `source_string` (lines 73-77): one kernel. -/
def source_string : List KernelSource := [parallel_add]

/-- Positions of the parameters an expression loads from. -/
def Expr.loads : Expr → List Nat
  | Expr.load p => [p]
  | Expr.add l r => l.loads ++ r.loads

/-- Positions of the parameters a kernel stores to. -/
def KernelSource.storedParams (k : KernelSource) : List Nat :=
  k.body.map (fun s => s.param)

/-- Positions of the parameters a kernel loads from. -/
def KernelSource.loadedParams (k : KernelSource) : List Nat :=
  k.body.flatMap (fun s => s.rhs.loads)

/-! ## The runtime: buffers, kernel objects, launch, readback -/

/-- A device buffer: its flags, its size in bytes, its elements (4 bytes each). -/
structure Buffer (α : Type) where
  flags : MemFlags
  sizeBytes : Nat
  data : List α

/-- Device memory: the buffers created so far (`none`: no valid buffer). -/
abbrev Mem (α : Type) := BufferName → Option (Buffer α)

/-- A kernel object: the kernel it was extracted from (`none`: extraction failed)
and the buffer bound at each parameter position. -/
structure KernelObj where
  src : Option KernelSource
  args : List (Option BufferName)
  deriving DecidableEq, Repr

/-- Modelled from the spec: `extractKernel(Program, entryName)` of §4.4, the
constructor `Kernel(program, name)` of the runtime. Extraction fails if no
build succeeded or the program has no entry point of that name; a fresh
kernel has no argument bound. -/
def extractKernel (buildStatus : Int) (program : List KernelSource) (entryName : String) :
    KernelObj :=
  if buildStatus = CL_SUCCESS then
    match program.find? (fun k => k.name == entryName) with
    | some k => { src := some k, args := List.replicate k.params.length none }
    | none => { src := none, args := [] }
  else { src := none, args := [] }

/-- Modelled from the spec: `allocate(Context, sizeBytes, accessMode, optionalHostInit)`
of §4.5, the constructor `Buffer(context, flags, size, host_ptr)` of the
runtime. A host initializer shorter than `sizeBytes` is a size mismatch; with
one, the first `sizeBytes` bytes of the host array are copied at creation;
without one the content is whatever the device memory held. -/
def allocate {α : Type} (uninit : Nat → α) (flags : MemFlags) (sizeBytes : Nat)
    (host : Option (List α)) : Option (Buffer α) :=
  match flags.copyHostPtr, host with
  | true, some h =>
    if h.length * sizeof_float < sizeBytes then none
    else some { flags := flags, sizeBytes := sizeBytes, data := h.take (sizeBytes / sizeof_float) }
  | false, none =>
    some { flags := flags, sizeBytes := sizeBytes
           data := (List.range (sizeBytes / sizeof_float)).map uninit }
  | _, _ => none

/-- Modelled from the spec: `bindArgument(Kernel, position, Buffer)` of §4.6,
`kernel.setArg` of the runtime. A position that exceeds the arity of the
kernel is invalid; an invalid kernel binds nothing. -/
def setArg (k : KernelObj) (position : Nat) (b : BufferName) : Int × KernelObj :=
  match k.src with
  | none => (CL_INVALID_KERNEL, k)
  | some s =>
    if position < s.params.length then
      (CL_SUCCESS, { k with args := k.args.set position (some b) })
    else (CL_INVALID_ARG_INDEX, k)

/-- Value of a right-hand side for the work-item with global id `i`. There is
no value (`none`) when a parameter is unbound, its buffer missing or
write-only, or `i` outside the buffer. -/
def Expr.eval {α : Type} [Add α] (args : List (Option BufferName)) (mem : Mem α) (i : Nat) :
    Expr → Option α
  | Expr.load p =>
    match (args.get? p).join with
    | none => none
    | some b =>
      match mem b with
      | none => none
      | some buf => if buf.flags.access = Access.writeOnly then none else buf.data.get? i
  | Expr.add l r =>
    match l.eval args mem i, r.eval args mem i with
    | some u, some v => some (u + v)
    | _, _ => none

/-- One statement `p[i] = rhs` of the work-item with global id `i`. It is
undefined (`none`) when the right-hand side has no value, the parameter is
unbound, its buffer missing or read-only, or `i` outside the buffer. -/
def execStore {α : Type} [Add α] (args : List (Option BufferName)) (i : Nat) (mem : Mem α)
    (s : Store) : Option (Mem α) :=
  match s.rhs.eval args mem i, (args.get? s.param).join with
  | some v, some b =>
    match mem b with
    | none => none
    | some buf =>
      if buf.flags.access = Access.readOnly then none
      else if i < buf.data.length then
        some (Function.update mem b (some { buf with data := buf.data.set i v }))
      else none
  | _, _ => none

/-- The whole kernel body for the work-item with global id `i`. -/
def execItem {α : Type} [Add α] (k : KernelSource) (args : List (Option BufferName))
    (mem : Mem α) (i : Nat) : Option (Mem α) :=
  k.body.foldlM (execStore args i) mem

/-- Global ids of a one-dimensional launch with offset 0, work-group after
work-group: group `g` holds the ids `g * localSize + l` for `l < localSize`. -/
def workItems (globalSize localSize : Nat) : List Nat :=
  (List.range (globalSize / localSize)).flatMap
    (fun g => (List.range localSize).map (fun l => g * localSize + l))

/-- The kernel body run by the work-items with the given global ids, one
work-item after the other in the order of the list. -/
def runItems {α : Type} [Add α] (k : KernelSource) (args : List (Option BufferName))
    (ids : List Nat) (mem : Mem α) : Option (Mem α) :=
  ids.foldlM (execItem k args) mem

/-- Modelled from the spec: `enqueueLaunch(Queue, Kernel, WorkGridDescriptor)`
of §4.6, `queue.enqueueNDRangeKernel` of the runtime. The launch is refused
for an invalid kernel, an unbound argument, or a global size that is not a
multiple of the local size (`InvalidWorkSizeError`); otherwise every
work-item runs the kernel body, and a fault of the device leaves the memory
as it was (`DeviceExecutionError`). -/
def enqueueNDRangeKernel {α : Type} [Add α] (k : KernelObj) (globalSize localSize : Nat)
    (mem : Mem α) : Int × Mem α :=
  match k.src with
  | none => (CL_INVALID_KERNEL, mem)
  | some s =>
    if k.args.any Option.isNone then (CL_INVALID_KERNEL_ARGS, mem)
    else if localSize = 0 ∨ globalSize % localSize ≠ 0 then (CL_INVALID_WORK_GROUP_SIZE, mem)
    else
      match runItems s k.args (workItems globalSize localSize) mem with
      | some m => (CL_SUCCESS, m)
      | none => (CL_OUT_OF_RESOURCES, mem)

/-- Modelled from the spec: `enqueueReadback(Queue, Buffer, hostDestination, blocking)`
of §4.6, `queue.enqueueReadBuffer` of the runtime: `sizeBytes` bytes of the
buffer, from `offset`, replace the start of the host array. The queue is
in-order, so the launch enqueued before has completed. -/
def enqueueReadBuffer {α : Type} (mem : Mem α) (b : BufferName) (offset sizeBytes : Nat)
    (host : List α) : Int × List α :=
  match mem b with
  | none => (CL_INVALID_MEM_OBJECT, host)
  | some buf =>
    if offset + sizeBytes > buf.sizeBytes then (CL_INVALID_VALUE, host)
    else
      (CL_SUCCESS,
        ((buf.data.drop (offset / sizeof_float)).take (sizeBytes / sizeof_float))
          ++ host.drop (sizeBytes / sizeof_float))

/-! ## The selection loop (lines 25-30 and 48-53) -/

/-- Outcome of reading a selection from the console: the console actions
performed, and the accepted value of `input` with the numbers left on the
console (`none`: the run is blocked in `cin >> input`). -/
structure Selection (α : Type) where
  events : List (Event α)
  accepted : Option (Nat × List Nat)

/-- The loop `while (input < 1 || input > count) { cout << noSuch; cin >> input; }`
entered with the current value of `input`. -/
def selectWhile {α : Type} (noSuch : Msg α) (count : Nat) : Nat → List Nat → Selection α
  | input, [] =>
    if input < 1 ∨ input > count then { events := [Event.cout noSuch], accepted := none }
    else { events := [], accepted := some (input, []) }
  | input, n :: rest =>
    if input < 1 ∨ input > count then
      let r := selectWhile noSuch count n rest
      { events := Event.cout noSuch :: Event.cin n :: r.events, accepted := r.accepted }
    else { events := [], accepted := some (input, n :: rest) }

/-- The statements `input = 0; cin >> input;` followed by the loop. -/
def readSelection {α : Type} (noSuch : Msg α) (count : Nat) : List Nat → Selection α
  | [] => { events := [], accepted := none }
  | n :: rest =>
    let r := selectWhile noSuch count n rest
    { events := Event.cin n :: r.events, accepted := r.accepted }

/-- The index expression `input - 1` on `unsigned int`. -/
def indexOf (input : Nat) : Nat := (input + UINT_RANGE - 1) % UINT_RANGE

/-! ## `main` -/

/-- The constant `numElements` (line 95). -/
def numElements : Nat := 10

/-- What one run of `main` did. -/
structure Run (α : Type) where
  /-- Runtime calls and console actions, in program order. -/
  trace : List (Event α)
  /-- Whether `main` ran to its end (`false`: blocked in `cin >> input`). -/
  finished : Bool
  /-- The kernel object at the moment the launch is enqueued. -/
  kernel : Option KernelObj
  /-- Device memory after the launch. -/
  mem : Mem α
  /-- Status returned by `enqueueNDRangeKernel` (which `main` discards). -/
  launchStatus : Option Int
  /-- Status returned by `enqueueReadBuffer` (which `main` discards). -/
  readStatus : Option Int
  /-- The host array `cpuOutput` at the end of the run. -/
  cpuOutput : Option (List α)

/-- A run that is blocked in `cin >> input` after the given actions. -/
def blocked {α : Type} (t : List (Event α)) : Run α :=
  { trace := t, finished := false, kernel := none, mem := fun _ => none,
    launchStatus := none, readStatus := none, cpuOutput := none }

/-- Lines 14-35: enumerate the platforms, list them, read a selection and
pick `platforms[input - 1]`. Returns the actions, and the index of the chosen
platform with the numbers left on the console. -/
def choosePlatform {α : Type} (env : Env α) : List (Event α) × Option (Nat × List Nat) :=
  let platforms := env.platforms
  let listing := (List.range platforms.length).map
    (fun i => Event.cout (Msg.platformEntry (i + 1) (platforms.getD i "")))
  let sel : Selection α := readSelection Msg.noSuchPlatform platforms.length env.stdin
  let t := [Event.platformGet, Event.cout Msg.availablePlatforms] ++ listing
    ++ [Event.cout Msg.enterPlatform] ++ sel.events
  match sel.accepted with
  | none => (t, none)
  | some (input, stdin) =>
    (t ++ [Event.selectPlatform (indexOf input),
           Event.cout (Msg.usingPlatform (platforms.getD (indexOf input) ""))],
      some (indexOf input, stdin))

/-- Lines 37-58: enumerate the devices of the chosen platform, list them, read
a selection and pick `devices[input - 1]`. -/
def chooseDevice {α : Type} (env : Env α) (platform : Nat) (stdin : List Nat) :
    List (Event α) × Option (Nat × List Nat) :=
  let devices := env.devices platform
  let listing := (List.range devices.length).map
    (fun i => Event.cout (Msg.deviceEntry (i + 1) (devices.getD i "")))
  let sel : Selection α := readSelection Msg.noSuchDevice devices.length stdin
  let t := [Event.getDevices, Event.cout Msg.availableDevices] ++ listing
    ++ [Event.cout Msg.enterDevice] ++ sel.events
  match sel.accepted with
  | none => (t, none)
  | some (input, rest) =>
    (t ++ [Event.selectDevice (indexOf input),
           Event.cout (Msg.usingDevice (devices.getD (indexOf input) ""))],
      some (indexOf input, rest))

/-- The flags `CL_MEM_READ_ONLY | CL_MEM_COPY_HOST_PTR` of lines 102-103. -/
def inFlags : MemFlags := { access := Access.readOnly, copyHostPtr := true }

/-- The flag `CL_MEM_WRITE_ONLY` of line 104. -/
def outFlags : MemFlags := { access := Access.writeOnly, copyHostPtr := false }

/-- Lines 102-104: the three buffers, each of `numElements * sizeof(cl_int)`
bytes; `clBufferA` and `clBufferB` copy the host arrays, `clOutput` has no
host pointer. -/
def createBuffers {α : Type} (env : Env α) (cpuArrayA cpuArrayB : List α) : Mem α :=
  let mem : Mem α := fun _ => none
  let mem := Function.update mem BufferName.clBufferA
    (allocate env.uninit inFlags (numElements * sizeof_cl_int) (some cpuArrayA))
  let mem := Function.update mem BufferName.clBufferB
    (allocate env.uninit inFlags (numElements * sizeof_cl_int) (some cpuArrayB))
  Function.update mem BufferName.clOutput
    (allocate env.uninit outFlags (numElements * sizeof_cl_int) none)

/-- Lines 108-110: the three `kernel.setArg` calls; their statuses are discarded. -/
def bindArguments (kernel : KernelObj) : KernelObj :=
  let kernel := (setArg kernel 0 BufferName.clBufferA).2
  let kernel := (setArg kernel 1 BufferName.clBufferB).2
  (setArg kernel 2 BufferName.clOutput).2

/-- Lines 60-136: context, program, build, kernel, host arrays, buffers,
arguments, queue, launch, readback, printing. No status is tested except the
one of `program.build`, which is only printed. -/
def compute {α : Type} [Add α] [Zero α] (env : Env α) (cpuArrayA cpuArrayB : List α)
    (local_work_size : Nat) : Run α :=
  -- lines 85-86
  let result := env.buildStatus
  let report : List (Event α) :=
    if result ≠ 0 then [Event.cout (Msg.compileError result)] else []
  -- line 92
  let kernel := extractKernel result source_string "parallel_add"
  -- line 98
  let cpuOutput : List α := List.replicate numElements 0
  -- lines 102-104
  let mem := createBuffers env cpuArrayA cpuArrayB
  -- lines 108-110
  let kernel := bindArguments kernel
  -- lines 121-126
  let global_work_size := numElements
  let launch := enqueueNDRangeKernel kernel global_work_size local_work_size mem
  -- line 130
  let read := enqueueReadBuffer launch.2 BufferName.clOutput 0
    (numElements * sizeof_cl_float) cpuOutput
  { trace :=
      [Event.createContext, Event.createProgram, Event.build] ++ report ++
      [Event.createKernel "parallel_add",
       Event.createBuffer BufferName.clBufferA inFlags (numElements * sizeof_cl_int)
         (some HostArray.cpuArrayA),
       Event.createBuffer BufferName.clBufferB inFlags (numElements * sizeof_cl_int)
         (some HostArray.cpuArrayB),
       Event.createBuffer BufferName.clOutput outFlags (numElements * sizeof_cl_int) none,
       Event.setArg 0 BufferName.clBufferA,
       Event.setArg 1 BufferName.clBufferB,
       Event.setArg 2 BufferName.clOutput,
       Event.createQueue,
       Event.enqueueNDRangeKernel global_work_size local_work_size,
       Event.enqueueReadBuffer BufferName.clOutput true 0 (numElements * sizeof_cl_float)
         HostArray.cpuOutput] ++
      (List.range numElements).map
        (fun i => Event.cout
          (Msg.resultLine (cpuArrayA.get? i) (cpuArrayB.get? i) (read.2.get? i))) ++
      [Event.pause]
    finished := true
    kernel := some kernel
    mem := launch.2
    launchStatus := some launch.1
    readStatus := some read.1
    cpuOutput := some read.2 }

/-- Lines 14-58: the platform selection followed by the device selection.
Returns the actions, and whether a device was chosen (`false`: the run is
blocked in one of the two selections). -/
def discover {α : Type} (env : Env α) : List (Event α) × Bool :=
  match choosePlatform env with
  | (t1, none) => (t1, false)
  | (t1, some (platform, stdin)) =>
    match chooseDevice env platform stdin with
    | (t2, none) => (t1 ++ t2, false)
    | (t2, some _) => (t1 ++ t2, true)

/-- The function `main` with its host arrays and its local work size as
parameters (the source fixes them: see `main`). -/
def mainWith {α : Type} [Add α] [Zero α] (env : Env α) (cpuArrayA cpuArrayB : List α)
    (local_work_size : Nat) : Run α :=
  match discover env with
  | (t, false) => blocked t
  | (t, true) =>
    let r := compute env cpuArrayA cpuArrayB local_work_size
    { r with trace := t ++ r.trace }

/-- The host array of line 96: `0.0f, 1.0f, ..., 9.0f`. -/
def cpuArrayA : List Float32 :=
  [Float32.lit 0 1, Float32.lit 1 1, Float32.lit 2 1, Float32.lit 3 1, Float32.lit 4 1,
   Float32.lit 5 1, Float32.lit 6 1, Float32.lit 7 1, Float32.lit 8 1, Float32.lit 9 1]

/-- The host array of line 97: `0.1f, 0.2f, ..., 1.0f`. -/
def cpuArrayB : List Float32 :=
  [Float32.lit 1 10, Float32.lit 2 10, Float32.lit 3 10, Float32.lit 4 10, Float32.lit 5 10,
   Float32.lit 6 10, Float32.lit 7 10, Float32.lit 8 10, Float32.lit 9 10, Float32.lit 10 10]

/-- The function `main` of `src/main.cpp`: the `float` arrays of lines 96-97
and `local_work_size = 10` (line 122). -/
def main (env : Env Float32) : Run Float32 := mainWith env cpuArrayA cpuArrayB 10

/-! ## The stages of the pipeline -/

/-- The component calls of the pipeline state machine. -/
inductive Stage
  | listPlatforms
  | selectPlatform
  | listDevices
  | selectDevice
  | createContext
  | buildProgram
  | extractKernel
  | allocateBuffer
  | bindArgument
  | enqueueLaunch
  | enqueueReadback
  deriving DecidableEq, Repr

/-- The component call an action of `main` makes, if it is one. -/
def Event.stage {α : Type} : Event α → Option Stage
  | Event.platformGet => some Stage.listPlatforms
  | Event.selectPlatform _ => some Stage.selectPlatform
  | Event.getDevices => some Stage.listDevices
  | Event.selectDevice _ => some Stage.selectDevice
  | Event.createContext => some Stage.createContext
  | Event.build => some Stage.buildProgram
  | Event.createKernel _ => some Stage.extractKernel
  | Event.createBuffer _ _ _ _ => some Stage.allocateBuffer
  | Event.setArg _ _ => some Stage.bindArgument
  | Event.enqueueNDRangeKernel _ _ => some Stage.enqueueLaunch
  | Event.enqueueReadBuffer _ _ _ _ _ => some Stage.enqueueReadback
  | _ => none

/-- The component calls of a run, in order. -/
def Run.stages {α : Type} (r : Run α) : List Stage := r.trace.filterMap Event.stage

/-- The order of the state machine, one entry per call: three buffers are
allocated and three arguments are bound. -/
def pipelineOrder : List Stage :=
  [Stage.listPlatforms, Stage.selectPlatform, Stage.listDevices, Stage.selectDevice,
   Stage.createContext, Stage.buildProgram, Stage.extractKernel,
   Stage.allocateBuffer, Stage.allocateBuffer, Stage.allocateBuffer,
   Stage.bindArgument, Stage.bindArgument, Stage.bindArgument,
   Stage.enqueueLaunch, Stage.enqueueReadback]

/-- A console and runtime on which both selections succeed at once: one
platform, one device, the user types `1` twice. -/
def demoEnv (buildStatus : Int) : Env Float32 :=
  { platforms := ["Platform"], devices := fun _ => ["Device"], buildStatus := buildStatus,
    stdin := [1, 1], uninit := fun _ => Float32.nan }

/-! ## Observations on traces -/

/-- Console actions: `cin >> input` and writes to `cout`. -/
def Event.isConsole {α : Type} : Event α → Bool
  | Event.cin _ => true
  | Event.cout _ => true
  | _ => false

/-- A list of console actions. -/
def AllConsole {α : Type} (c : List (Event α)) : Prop := ∀ e ∈ c, e.isConsole = true

/-- The buffer a `Buffer(...)` call creates, its access mode and its size in bytes. -/
def Event.allocation {α : Type} : Event α → Option (BufferName × Access × Nat)
  | Event.createBuffer b flags sizeBytes _ => some (b, flags.access, sizeBytes)
  | _ => none

/-- The position and the buffer of a `kernel.setArg` call. -/
def Event.binding {α : Type} : Event α → Option (Nat × BufferName)
  | Event.setArg position b => some (position, b)
  | _ => none

/-- The global and local size of an `enqueueNDRangeKernel` call. -/
def Event.launch {α : Type} : Event α → Option (Nat × Nat)
  | Event.enqueueNDRangeKernel g l => some (g, l)
  | _ => none

/-- The buffer, blocking flag, offset and size in bytes of an `enqueueReadBuffer` call. -/
def Event.hostRead {α : Type} : Event α → Option (BufferName × Bool × Nat × Nat)
  | Event.enqueueReadBuffer b blocking offset sizeBytes _ => some (b, blocking, offset, sizeBytes)
  | _ => none

/-- A runtime that finds no platform, with a user who types `1`. -/
def noPlatformEnv : Env Float32 :=
  { platforms := [], devices := fun _ => [], buildStatus := 0, stdin := [1],
    uninit := fun _ => 0 }

/-- A runtime with one platform that has no device, with a user who types `1` and `1`. -/
def noDeviceEnv : Env Float32 :=
  { platforms := ["Platform"], devices := fun _ => [], buildStatus := 0, stdin := [1, 1],
    uninit := fun _ => 0 }

/-- The device memory while the work-items of the launch of `main` run: the
input buffers as created, and an output buffer of ten elements that holds
`y[i] + x[i]` at the ids in `done` and its creation content at the others. -/
def LaunchInv {α : Type} [Add α] (env : Env α) (a b : List α) (done : List Nat)
    (m : Mem α) : Prop :=
  m BufferName.clBufferA = some { flags := inFlags, sizeBytes := 40, data := a } ∧
  m BufferName.clBufferB = some { flags := inFlags, sizeBytes := 40, data := b } ∧
  ∃ d : List α, m BufferName.clOutput = some { flags := outFlags, sizeBytes := 40, data := d } ∧
    d.length = numElements ∧
    ∀ i, i < numElements →
      d[i]? = if i ∈ done then (List.zipWith (fun x y => y + x) a b)[i]?
        else some (env.uninit i)

/-! ## Properties of the selection loop -/

theorem selectWhile_accepted_iff {α : Type} (noSuch : Msg α) (count : Nat) (stdin : List Nat) :
    ∀ (input n : Nat) (rest : List Nat),
      (selectWhile noSuch count input stdin).accepted = some (n, rest) ↔
        ∃ pre, input :: stdin = pre ++ n :: rest ∧ (∀ m ∈ pre, m < 1 ∨ m > count) ∧
          (1 ≤ n ∧ n ≤ count) := by
  induction stdin with
  | nil =>
    intro input n rest
    by_cases hbad : input < 1 ∨ input > count
    · simp only [selectWhile, if_pos hbad]
      constructor
      · intro h; cases h
      · rintro ⟨pre, hpre, hrej, hn⟩
        cases pre with
        | nil =>
          simp only [List.nil_append, List.cons.injEq] at hpre
          omega
        | cons c pre =>
          simp only [List.cons_append, List.cons.injEq] at hpre
          have := congrArg List.length hpre.2
          simp at this
          omega
    · simp only [selectWhile, if_neg hbad]
      constructor
      · intro h
        simp only [Option.some.injEq, Prod.mk.injEq] at h
        refine ⟨[], ?_, ?_, ?_⟩
        · simp [h.1, h.2]
        · simp
        · omega
      · rintro ⟨pre, hpre, hrej, hn⟩
        cases pre with
        | nil =>
          simp only [List.nil_append, List.cons.injEq] at hpre
          simp [hpre.1, hpre.2]
        | cons c pre =>
          simp only [List.cons_append, List.cons.injEq] at hpre
          have := congrArg List.length hpre.2
          simp at this
          omega
  | cons x xs ih =>
    intro input n rest
    by_cases hbad : input < 1 ∨ input > count
    · simp only [selectWhile, if_pos hbad]
      rw [ih x n rest]
      constructor
      · rintro ⟨pre, hpre, hrej, hn⟩
        refine ⟨input :: pre, by simp [hpre], ?_, hn⟩
        intro m hm
        rcases List.mem_cons.1 hm with h | h
        · subst h; exact hbad
        · exact hrej m h
      · rintro ⟨pre, hpre, hrej, hn⟩
        cases pre with
        | nil =>
          simp only [List.nil_append, List.cons.injEq] at hpre
          omega
        | cons c pre =>
          simp only [List.cons_append, List.cons.injEq] at hpre
          exact ⟨pre, hpre.2, fun m hm => hrej m (List.mem_cons_of_mem _ hm), hn⟩
    · simp only [selectWhile, if_neg hbad]
      constructor
      · intro h
        simp only [Option.some.injEq, Prod.mk.injEq] at h
        refine ⟨[], ?_, ?_, ?_⟩
        · simp [h.1, h.2]
        · simp
        · omega
      · rintro ⟨pre, hpre, hrej, hn⟩
        cases pre with
        | nil =>
          simp only [List.nil_append, List.cons.injEq] at hpre
          simp [hpre.1, hpre.2]
        | cons c pre =>
          simp only [List.cons_append, List.cons.injEq] at hpre
          exact absurd (hrej c (List.mem_cons_self _ _)) (by rw [← hpre.1]; exact hbad)

theorem readSelection_accepted_iff {α : Type} (noSuch : Msg α) (count : Nat) (stdin : List Nat)
    (n : Nat) (rest : List Nat) :
    (readSelection noSuch count stdin).accepted = some (n, rest) ↔
      ∃ pre, stdin = pre ++ n :: rest ∧ (∀ m ∈ pre, m < 1 ∨ m > count) ∧
        (1 ≤ n ∧ n ≤ count) := by
  cases stdin with
  | nil =>
    simp only [readSelection]
    constructor
    · intro h; cases h
    · rintro ⟨pre, hpre, -, -⟩
      have := congrArg List.length hpre
      simp at this
      omega
  | cons x xs =>
    simp only [readSelection]
    exact selectWhile_accepted_iff noSuch count xs x n rest

/-- The console actions of the loop: an entry and a refusal for every entry
that is rejected, up to the end of the console or to the first entry that is
not rejected. -/
theorem selectWhile_events {α : Type} (noSuch : Msg α) (count : Nat) (stdin : List Nat) :
    ∀ (input n : Nat) (pre rest : List Nat),
      input :: stdin = pre ++ n :: rest → (∀ m ∈ pre, m < 1 ∨ m > count) →
      (1 ≤ n ∧ n ≤ count) →
      Event.cin input :: (selectWhile noSuch count input stdin).events =
        pre.flatMap (fun m => [Event.cin m, Event.cout noSuch]) ++ [Event.cin n] := by
  induction stdin with
  | nil =>
    intro input n pre rest hpre hrej hn
    cases pre with
    | nil =>
      simp only [List.nil_append, List.cons.injEq] at hpre
      obtain ⟨rfl, -⟩ := hpre
      have hok : ¬ (input < 1 ∨ input > count) := by omega
      simp only [selectWhile, if_neg hok, List.flatMap_nil, List.nil_append]
    | cons c pre =>
      simp only [List.cons_append, List.cons.injEq] at hpre
      have := congrArg List.length hpre.2
      simp at this
      omega
  | cons x xs ih =>
    intro input n pre rest hpre hrej hn
    cases pre with
    | nil =>
      simp only [List.nil_append, List.cons.injEq] at hpre
      obtain ⟨rfl, -⟩ := hpre
      have hok : ¬ (input < 1 ∨ input > count) := by omega
      simp only [selectWhile, if_neg hok, List.flatMap_nil, List.nil_append]
    | cons c pre =>
      simp only [List.cons_append, List.cons.injEq] at hpre
      obtain ⟨rfl, hxs⟩ := hpre
      have hbad : input < 1 ∨ input > count := hrej input (List.mem_cons_self _ _)
      have hrec := ih x n pre rest hxs (fun m hm => hrej m (List.mem_cons_of_mem _ hm)) hn
      simp only [selectWhile, if_pos hbad, List.flatMap_cons, List.cons_append,
        List.nil_append]
      rw [← hrec]

theorem indexOf_eq (n : Nat) (h1 : 1 ≤ n) (hU : n < UINT_RANGE) : indexOf n = n - 1 := by
  unfold indexOf UINT_RANGE at *
  omega

theorem selectWhile_console {α : Type} (noSuch : Msg α) (count : Nat) (stdin : List Nat) :
    ∀ input : Nat, AllConsole (selectWhile noSuch count input stdin).events := by
  induction stdin with
  | nil =>
    intro input e he
    by_cases hbad : input < 1 ∨ input > count
    · simp only [selectWhile, if_pos hbad, List.mem_singleton] at he
      subst he; rfl
    · simp only [selectWhile, if_neg hbad] at he
      cases he
  | cons x xs ih =>
    intro input e he
    by_cases hbad : input < 1 ∨ input > count
    · simp only [selectWhile, if_pos hbad, List.mem_cons] at he
      rcases he with rfl | rfl | he
      · rfl
      · rfl
      · exact ih x e he
    · simp only [selectWhile, if_neg hbad] at he
      cases he

theorem readSelection_console {α : Type} (noSuch : Msg α) (count : Nat) (stdin : List Nat) :
    AllConsole (readSelection noSuch count stdin).events := by
  cases stdin with
  | nil => intro e he; cases he
  | cons x xs =>
    intro e he
    simp only [readSelection, List.mem_cons] at he
    rcases he with rfl | he
    · rfl
    · exact selectWhile_console noSuch count xs x e he

theorem AllConsole.append {α : Type} {c d : List (Event α)} (hc : AllConsole c)
    (hd : AllConsole d) : AllConsole (c ++ d) := by
  intro e he
  rcases List.mem_append.1 he with h | h
  · exact hc e h
  · exact hd e h

theorem AllConsole.cons {α : Type} {e : Event α} {c : List (Event α)}
    (he : e.isConsole = true) (hc : AllConsole c) : AllConsole (e :: c) := by
  intro x hx
  rcases List.mem_cons.1 hx with h | h
  · subst h; exact he
  · exact hc x h

theorem AllConsole.nil {α : Type} : AllConsole ([] : List (Event α)) := by
  intro e he; cases he

theorem allConsole_map_cout {α β : Type} (l : List β) (f : β → Msg α) :
    AllConsole (l.map (fun i => Event.cout (f i))) := by
  intro e he
  obtain ⟨i, -, rfl⟩ := List.mem_map.1 he
  rfl

theorem filterMap_console {α β : Type} (f : Event α → Option β)
    (hf : ∀ e : Event α, e.isConsole = true → f e = none) {c : List (Event α)}
    (hc : AllConsole c) : c.filterMap f = [] := by
  induction c with
  | nil => rfl
  | cons e c ih =>
    rw [List.filterMap_cons_none (hf e (hc e (List.mem_cons_self _ _)))]
    exact ih (fun x hx => hc x (List.mem_cons_of_mem _ hx))

theorem stage_console {α : Type} {c : List (Event α)} (hc : AllConsole c) :
    c.filterMap Event.stage = [] :=
  filterMap_console _ (fun e he => by cases e <;> first | rfl | cases he) hc

theorem allocation_console {α : Type} {c : List (Event α)} (hc : AllConsole c) :
    c.filterMap Event.allocation = [] :=
  filterMap_console _ (fun e he => by cases e <;> first | rfl | cases he) hc

theorem binding_console {α : Type} {c : List (Event α)} (hc : AllConsole c) :
    c.filterMap Event.binding = [] :=
  filterMap_console _ (fun e he => by cases e <;> first | rfl | cases he) hc

theorem launch_console {α : Type} {c : List (Event α)} (hc : AllConsole c) :
    c.filterMap Event.launch = [] :=
  filterMap_console _ (fun e he => by cases e <;> first | rfl | cases he) hc

theorem hostRead_console {α : Type} {c : List (Event α)} (hc : AllConsole c) :
    c.filterMap Event.hostRead = [] :=
  filterMap_console _ (fun e he => by cases e <;> first | rfl | cases he) hc

/-! ## The shape of a run -/

/-- Lines 14-35 call `Platform::get`, then act on the console only, then (if a
selection is accepted) pick the platform and print its name. -/
theorem choosePlatform_shape {α : Type} (env : Env α) :
    ∃ c : List (Event α), AllConsole c ∧
      (choosePlatform env = (Event.platformGet :: c, none) ∨
        ∃ p rest u, choosePlatform env =
          (Event.platformGet :: c ++ [Event.selectPlatform p, Event.cout u], some (p, rest))) := by
  refine ⟨Event.cout Msg.availablePlatforms ::
    ((List.range env.platforms.length).map
      (fun i => Event.cout (Msg.platformEntry (i + 1) (env.platforms.getD i ""))) ++
    Event.cout Msg.enterPlatform ::
      (readSelection Msg.noSuchPlatform env.platforms.length env.stdin).events), ?_, ?_⟩
  · exact AllConsole.cons rfl ((allConsole_map_cout _ _).append
      (AllConsole.cons rfl (readSelection_console _ _ _)))
  · cases hsel : (readSelection (Msg.noSuchPlatform : Msg α) env.platforms.length
      env.stdin).accepted with
    | none => left; simp [choosePlatform, hsel]
    | some x =>
      obtain ⟨input, rest⟩ := x
      right
      exact ⟨indexOf input, rest, Msg.usingPlatform (env.platforms.getD (indexOf input) ""),
        by simp [choosePlatform, hsel]⟩

/-- Lines 37-58 call `getDevices`, then act on the console only, then (if a
selection is accepted) pick the device and print its name. -/
theorem chooseDevice_shape {α : Type} (env : Env α) (platform : Nat) (stdin : List Nat) :
    ∃ c : List (Event α), AllConsole c ∧
      (chooseDevice env platform stdin = (Event.getDevices :: c, none) ∨
        ∃ d rest u, chooseDevice env platform stdin =
          (Event.getDevices :: c ++ [Event.selectDevice d, Event.cout u], some (d, rest))) := by
  refine ⟨Event.cout Msg.availableDevices ::
    ((List.range (env.devices platform).length).map
      (fun i => Event.cout (Msg.deviceEntry (i + 1) ((env.devices platform).getD i ""))) ++
    Event.cout Msg.enterDevice ::
      (readSelection Msg.noSuchDevice (env.devices platform).length stdin).events), ?_, ?_⟩
  · exact AllConsole.cons rfl ((allConsole_map_cout _ _).append
      (AllConsole.cons rfl (readSelection_console _ _ _)))
  · cases hsel : (readSelection (Msg.noSuchDevice : Msg α) (env.devices platform).length
      stdin).accepted with
    | none => left; simp [chooseDevice, hsel]
    | some x =>
      obtain ⟨input, rest⟩ := x
      right
      exact ⟨indexOf input, rest,
        Msg.usingDevice ((env.devices platform).getD (indexOf input) ""),
        by simp [chooseDevice, hsel]⟩

/-- Lines 60-136 are straight-line code: the same calls in the same order on
every run, with console output after the build (only if its status is not
zero) and after the readback. -/
theorem compute_trace {α : Type} [Add α] [Zero α] (env : Env α) (a b : List α) (l : Nat) :
    ∃ r c : List (Event α), AllConsole r ∧ AllConsole c ∧
      (r = if env.buildStatus ≠ 0 then [Event.cout (Msg.compileError env.buildStatus)]
        else []) ∧
      (compute env a b l).trace =
        [Event.createContext, Event.createProgram, Event.build] ++ r ++
        [Event.createKernel "parallel_add",
         Event.createBuffer BufferName.clBufferA inFlags (numElements * sizeof_cl_int)
           (some HostArray.cpuArrayA),
         Event.createBuffer BufferName.clBufferB inFlags (numElements * sizeof_cl_int)
           (some HostArray.cpuArrayB),
         Event.createBuffer BufferName.clOutput outFlags (numElements * sizeof_cl_int) none,
         Event.setArg 0 BufferName.clBufferA,
         Event.setArg 1 BufferName.clBufferB,
         Event.setArg 2 BufferName.clOutput,
         Event.createQueue,
         Event.enqueueNDRangeKernel numElements l,
         Event.enqueueReadBuffer BufferName.clOutput true 0 (numElements * sizeof_cl_float)
           HostArray.cpuOutput] ++ c ++ [Event.pause] := by
  refine ⟨_, _, ?_, ?_, rfl, rfl⟩
  · by_cases h : env.buildStatus ≠ 0
    · rw [if_pos h]; exact AllConsole.cons rfl AllConsole.nil
    · rw [if_neg h]; exact AllConsole.nil
  · exact allConsole_map_cout _ _

/-- The two selections do not depend on the host arrays: either one of them blocks, after
`Platform::get` alone or after `getDevices`, or both succeed. -/
theorem discover_shape {α : Type} (env : Env α) :
    (∃ c, AllConsole c ∧ discover env = (Event.platformGet :: c, false)) ∨
    (∃ c p u c2, AllConsole c ∧ AllConsole c2 ∧
      discover env =
        ((Event.platformGet :: c ++ [Event.selectPlatform p, Event.cout u]) ++
          Event.getDevices :: c2, false)) ∨
    (∃ c p u c2 d v, AllConsole c ∧ AllConsole c2 ∧
      discover env =
        ((Event.platformGet :: c ++ [Event.selectPlatform p, Event.cout u]) ++
          (Event.getDevices :: c2 ++ [Event.selectDevice d, Event.cout v]), true)) := by
  obtain ⟨c, hc, h1 | ⟨p, rest, u, h1⟩⟩ := choosePlatform_shape env
  · left
    exact ⟨c, hc, by simp only [discover, h1]⟩
  · obtain ⟨c2, hc2, h2 | ⟨d, rest2, v, h2⟩⟩ := chooseDevice_shape env p rest
    · right; left
      exact ⟨c, p, u, c2, hc, hc2, by simp only [discover, h1, h2]⟩
    · right; right
      exact ⟨c, p, u, c2, d, v, hc, hc2, by simp only [discover, h1, h2]⟩

/-- The three ways a run of `main` can go: blocked in the platform selection,
blocked in the device selection, or run to the end. -/
theorem mainWith_shape {α : Type} [Add α] [Zero α] (env : Env α) (a b : List α) (l : Nat) :
    (∃ c, AllConsole c ∧ mainWith env a b l = blocked (Event.platformGet :: c)) ∨
    (∃ c p u c2, AllConsole c ∧ AllConsole c2 ∧
      mainWith env a b l = blocked
        ((Event.platformGet :: c ++ [Event.selectPlatform p, Event.cout u]) ++
          Event.getDevices :: c2)) ∨
    (∃ c p u c2 d v, AllConsole c ∧ AllConsole c2 ∧
      mainWith env a b l =
        { compute env a b l with
          trace := (Event.platformGet :: c ++ [Event.selectPlatform p, Event.cout u]) ++
            (Event.getDevices :: c2 ++ [Event.selectDevice d, Event.cout v]) ++
            (compute env a b l).trace }) := by
  rcases discover_shape env with ⟨c, hc, h⟩ | ⟨c, p, u, c2, hc, hc2, h⟩ |
    ⟨c, p, u, c2, d, v, hc, hc2, h⟩
  · left
    exact ⟨c, hc, by simp only [mainWith, h]⟩
  · right; left
    exact ⟨c, p, u, c2, hc, hc2, by simp only [mainWith, h]⟩
  · right; right
    exact ⟨c, p, u, c2, d, v, hc, hc2, by simp only [mainWith, h]⟩

theorem selectWhile_reject_all {α : Type} (noSuch : Msg α) (count : Nat) (stdin : List Nat) :
    ∀ input : Nat, (input < 1 ∨ input > count) → (∀ m ∈ stdin, m < 1 ∨ m > count) →
      (selectWhile noSuch count input stdin).accepted = none ∧
      (selectWhile noSuch count input stdin).events =
        Event.cout noSuch :: stdin.flatMap (fun m => [Event.cin m, Event.cout noSuch]) := by
  induction stdin with
  | nil =>
    intro input hbad _
    simp only [selectWhile, if_pos hbad, List.flatMap_nil, and_self]
  | cons x xs ih =>
    intro input hbad hall
    have hrec := ih x (hall x (List.mem_cons_self _ _))
      (fun m hm => hall m (List.mem_cons_of_mem _ hm))
    simp only [selectWhile, if_pos hbad, hrec.1, hrec.2, List.flatMap_cons, List.cons_append,
      List.nil_append, and_self]

theorem readSelection_reject_all {α : Type} (noSuch : Msg α) (count : Nat) (stdin : List Nat)
    (hall : ∀ m ∈ stdin, m < 1 ∨ m > count) :
    (readSelection noSuch count stdin).accepted = none ∧
    (readSelection noSuch count stdin).events =
      stdin.flatMap (fun m => [Event.cin m, Event.cout noSuch]) := by
  cases stdin with
  | nil => simp [readSelection]
  | cons x xs =>
    have h := selectWhile_reject_all noSuch count xs x (hall x (List.mem_cons_self _ _))
      (fun m hm => hall m (List.mem_cons_of_mem _ hm))
    simp only [readSelection, h.1, h.2, List.flatMap_cons, List.cons_append, List.nil_append,
      and_self]

/-! ## The claims on the order of the calls and on the selection -/

/-- C8: on every run the component calls of `main` follow the order of the
state machine, one after the other, none skipped, repeated or moved: a run
that reaches the end has made exactly the calls of `pipelineOrder`, and a run
that is blocked waiting for a valid index has made the first one (platforms
listed) or the first three (devices listed) of them. -/
theorem pipeline_calls_in_order {α : Type} [Add α] [Zero α] (env : Env α) (a b : List α)
    (l : Nat) :
    ((mainWith env a b l).finished = true ∧ (mainWith env a b l).stages = pipelineOrder) ∨
    ((mainWith env a b l).finished = false ∧
      ((mainWith env a b l).stages = pipelineOrder.take 1 ∨
        (mainWith env a b l).stages = pipelineOrder.take 3)) := by
  rcases mainWith_shape env a b l with ⟨c, hc, h⟩ | ⟨c, p, u, c2, hc, hc2, h⟩ |
    ⟨c, p, u, c2, d, v, hc, hc2, h⟩
  · right
    refine ⟨by rw [h]; rfl, Or.inl ?_⟩
    rw [h]
    simp [Run.stages, blocked, Event.stage, stage_console hc, pipelineOrder]
  · right
    refine ⟨by rw [h]; rfl, Or.inr ?_⟩
    rw [h]
    simp [Run.stages, blocked, Event.stage, stage_console hc, stage_console hc2,
      List.filterMap_append, pipelineOrder]
  · left
    obtain ⟨r, c3, hr, hc3, -, ht⟩ := compute_trace env a b l
    refine ⟨by rw [h]; rfl, ?_⟩
    rw [h]
    simp [Run.stages, ht, Event.stage, stage_console hc, stage_console hc2, stage_console hr,
      stage_console hc3, List.filterMap_append, pipelineOrder]

/-- C2, as the code has it: when `program.build` returns a non-zero status the
run prints that status right after the build and goes on: the kernel is
extracted right after the report and every later call (buffers, arguments,
launch, readback) is made, in order. -/
theorem build_failure_reported_then_run_continues {α : Type} [Add α] [Zero α] (env : Env α)
    (a b : List α) (l : Nat) (hfail : env.buildStatus ≠ 0)
    (hfin : (mainWith env a b l).finished = true) :
    (∃ pre post, (mainWith env a b l).trace =
      pre ++ Event.build :: Event.cout (Msg.compileError env.buildStatus) ::
        Event.createKernel "parallel_add" :: post) ∧
    (mainWith env a b l).stages = pipelineOrder := by
  rcases mainWith_shape env a b l with ⟨c, hc, h⟩ | ⟨c, p, u, c2, hc, hc2, h⟩ |
    ⟨c, p, u, c2, d, v, hc, hc2, h⟩
  · rw [h] at hfin; cases hfin
  · rw [h] at hfin; cases hfin
  · obtain ⟨r, c3, hr, hc3, hrep, ht⟩ := compute_trace env a b l
    rw [if_pos hfail] at hrep
    subst hrep
    constructor
    · rw [h]
      refine ⟨(Event.platformGet :: c ++ [Event.selectPlatform p, Event.cout u]) ++
        (Event.getDevices :: c2 ++ [Event.selectDevice d, Event.cout v]) ++
        [Event.createContext, Event.createProgram],
        [Event.createBuffer BufferName.clBufferA inFlags (numElements * sizeof_cl_int)
           (some HostArray.cpuArrayA),
         Event.createBuffer BufferName.clBufferB inFlags (numElements * sizeof_cl_int)
           (some HostArray.cpuArrayB),
         Event.createBuffer BufferName.clOutput outFlags (numElements * sizeof_cl_int) none,
         Event.setArg 0 BufferName.clBufferA,
         Event.setArg 1 BufferName.clBufferB,
         Event.setArg 2 BufferName.clOutput,
         Event.createQueue,
         Event.enqueueNDRangeKernel numElements l,
         Event.enqueueReadBuffer BufferName.clOutput true 0 (numElements * sizeof_cl_float)
           HostArray.cpuOutput] ++ c3 ++ [Event.pause], ?_⟩
      simp only [ht]
      simp only [List.append_assoc, List.cons_append, List.nil_append]
    · rw [h]
      simp [Run.stages, ht, Event.stage, stage_console hc, stage_console hc2,
        stage_console hc3, List.filterMap_append, pipelineOrder]

/-- Witness of C2 as the code has it: the run of `main` with one platform, one
device and build status -11. -/
theorem build_failure_reported_then_run_continues_witness :
    (demoEnv (-11)).buildStatus ≠ 0 ∧ (main (demoEnv (-11))).finished = true ∧
    (main (demoEnv (-11))).stages = pipelineOrder :=
  ⟨by decide, rfl,
    (build_failure_reported_then_run_continues (demoEnv (-11)) cpuArrayA cpuArrayB 10
      (by decide) rfl).2⟩

/-- C2 as stated fails: with build status -11 the run does not halt after the
report; `Kernel(program, "parallel_add")` and all later calls are made. -/
theorem build_failure_does_not_halt :
    (demoEnv (-11)).buildStatus = -11 ∧
    (main (demoEnv (-11))).finished = true ∧
    (main (demoEnv (-11))).stages =
      [Stage.listPlatforms, Stage.selectPlatform, Stage.listDevices, Stage.selectDevice,
       Stage.createContext, Stage.buildProgram, Stage.extractKernel,
       Stage.allocateBuffer, Stage.allocateBuffer, Stage.allocateBuffer,
       Stage.bindArgument, Stage.bindArgument, Stage.bindArgument,
       Stage.enqueueLaunch, Stage.enqueueReadback] ∧
    (main (demoEnv (-11))).trace.take 12 =
      [Event.platformGet, Event.cout Msg.availablePlatforms,
       Event.cout (Msg.platformEntry 1 "Platform"), Event.cout Msg.enterPlatform,
       Event.cin 1, Event.selectPlatform 0, Event.cout (Msg.usingPlatform "Platform"),
       Event.getDevices, Event.cout Msg.availableDevices,
       Event.cout (Msg.deviceEntry 1 "Device"), Event.cout Msg.enterDevice, Event.cin 1] ∧
    ((main (demoEnv (-11))).trace.drop 12).take 7 =
      [Event.selectDevice 0, Event.cout (Msg.usingDevice "Device"),
       Event.createContext, Event.createProgram, Event.build,
       Event.cout (Msg.compileError (-11)), Event.createKernel "parallel_add"] ∧
    ¬ (∀ env : Env Float32, env.buildStatus ≠ 0 → Stage.extractKernel ∉ (main env).stages) :=
  ⟨rfl, rfl, rfl, rfl, rfl, fun h => h (demoEnv (-11)) (by decide) (by decide)⟩

/-- C4, as the code has it: an empty enumeration raises no error. With no
platform, `main` still prompts and reads; every number typed is refused with
"No such platform." and the run stays in the platform selection. With a
platform chosen that has no device, the same happens in the device selection:
every number left on the console is read and refused, and no later call is made. -/
theorem empty_enumeration_blocks_in_selection {α : Type} [Add α] [Zero α] (env : Env α)
    (a b : List α) (l : Nat) :
    (env.platforms = [] →
      mainWith env a b l = blocked
        ([Event.platformGet, Event.cout Msg.availablePlatforms, Event.cout Msg.enterPlatform]
          ++ env.stdin.flatMap (fun m => [Event.cin m, Event.cout Msg.noSuchPlatform]))) ∧
    (∀ t p rest, choosePlatform env = (t, some (p, rest)) → env.devices p = [] →
      mainWith env a b l = blocked
        (t ++ ([Event.getDevices, Event.cout Msg.availableDevices, Event.cout Msg.enterDevice]
          ++ rest.flatMap (fun m => [Event.cin m, Event.cout Msg.noSuchDevice])))) := by
  constructor
  · intro hp
    have hrej := readSelection_reject_all (Msg.noSuchPlatform : Msg α) 0 env.stdin
      (fun m _ => by omega)
    simp [mainWith, discover, choosePlatform, hp, hrej.1, hrej.2]
  · intro t p rest hcp hd
    have hrej := readSelection_reject_all (Msg.noSuchDevice : Msg α) 0 rest
      (fun m _ => by omega)
    simp [mainWith, discover, hcp, chooseDevice, hd, hrej.1, hrej.2]

/-- Witness of C4 as the code has it: no platform and the user types `1`; one
platform without devices and the user types `1` and `1`. -/
theorem empty_enumeration_blocks_in_selection_witness :
    noPlatformEnv.platforms = [] ∧
    main noPlatformEnv = blocked
      ([Event.platformGet, Event.cout Msg.availablePlatforms, Event.cout Msg.enterPlatform]
        ++ noPlatformEnv.stdin.flatMap (fun m => [Event.cin m, Event.cout Msg.noSuchPlatform])) ∧
    noDeviceEnv.devices 0 = [] ∧
    main noDeviceEnv = blocked
      ((choosePlatform noDeviceEnv).1 ++
        ([Event.getDevices, Event.cout Msg.availableDevices, Event.cout Msg.enterDevice]
          ++ [1].flatMap (fun m => [Event.cin m, Event.cout Msg.noSuchDevice]))) :=
  ⟨rfl,
    (empty_enumeration_blocks_in_selection noPlatformEnv cpuArrayA cpuArrayB 10).1 rfl,
    rfl,
    (empty_enumeration_blocks_in_selection noDeviceEnv cpuArrayA cpuArrayB 10).2
      (choosePlatform noDeviceEnv).1 0 [1] rfl rfl⟩

/-- C4 as stated fails: with no platform the run raises no error and does not
halt before a selection is requested; it prompts, reads the `1` the user
types, refuses it, and waits for the next number. With one platform and no
device, the same happens in the device selection. -/
theorem empty_enumeration_still_reads_a_selection :
    noPlatformEnv.platforms = [] ∧
    (main noPlatformEnv).trace =
      [Event.platformGet, Event.cout Msg.availablePlatforms, Event.cout Msg.enterPlatform,
       Event.cin 1, Event.cout Msg.noSuchPlatform] ∧
    (main noPlatformEnv).finished = false ∧
    noDeviceEnv.devices 0 = [] ∧
    (main noDeviceEnv).trace =
      [Event.platformGet, Event.cout Msg.availablePlatforms,
       Event.cout (Msg.platformEntry 1 "Platform"), Event.cout Msg.enterPlatform,
       Event.cin 1, Event.selectPlatform 0, Event.cout (Msg.usingPlatform "Platform"),
       Event.getDevices, Event.cout Msg.availableDevices, Event.cout Msg.enterDevice,
       Event.cin 1, Event.cout Msg.noSuchDevice] ∧
    (main noDeviceEnv).finished = false ∧
    ¬ (∀ env : Env Float32, env.platforms = [] → ∀ n, Event.cin n ∉ (main env).trace) :=
  ⟨rfl, rfl, rfl, rfl, rfl, rfl,
    fun h => h noPlatformEnv rfl 1
      (List.mem_cons_of_mem _ (List.mem_cons_of_mem _ (List.mem_cons_of_mem _
        (List.mem_cons_self _ _))))⟩

/-- The platform `main` picks is `platforms[input - 1]` for the accepted `input`. -/
theorem choosePlatform_accepted {α : Type} (env : Env α) (t : List (Event α)) (p : Nat)
    (r : List Nat) (h : choosePlatform env = (t, some (p, r))) :
    ∃ input, (readSelection (Msg.noSuchPlatform : Msg α) env.platforms.length
      env.stdin).accepted = some (input, r) ∧ p = indexOf input := by
  cases hsel : (readSelection (Msg.noSuchPlatform : Msg α) env.platforms.length
    env.stdin).accepted with
  | none => simp [choosePlatform, hsel] at h
  | some x =>
    obtain ⟨input, rest⟩ := x
    simp only [choosePlatform, hsel, Prod.mk.injEq, Option.some.injEq] at h
    exact ⟨input, by rw [h.2.2], h.2.1.symm⟩

/-- The device `main` picks is `devices[input - 1]` for the accepted `input`. -/
theorem chooseDevice_accepted {α : Type} (env : Env α) (platform : Nat) (stdin : List Nat)
    (t : List (Event α)) (d : Nat) (r : List Nat)
    (h : chooseDevice env platform stdin = (t, some (d, r))) :
    ∃ input, (readSelection (Msg.noSuchDevice : Msg α) (env.devices platform).length
      stdin).accepted = some (input, r) ∧ d = indexOf input := by
  cases hsel : (readSelection (Msg.noSuchDevice : Msg α) (env.devices platform).length
    stdin).accepted with
  | none => simp [chooseDevice, hsel] at h
  | some x =>
    obtain ⟨input, rest⟩ := x
    simp only [chooseDevice, hsel, Prod.mk.injEq, Option.some.injEq] at h
    exact ⟨input, by rw [h.2.2], h.2.1.symm⟩

/-- An accepted entry gives an index inside the enumerated sequence. -/
theorem accepted_index_in_bounds {α : Type} (noSuch : Msg α) (count : Nat) (stdin : List Nat)
    (hU : ∀ m ∈ stdin, m < UINT_RANGE) (n : Nat) (rest : List Nat)
    (hacc : (readSelection noSuch count stdin).accepted = some (n, rest)) :
    indexOf n = n - 1 ∧ indexOf n < count := by
  obtain ⟨pre, hpre, -, hn⟩ := (readSelection_accepted_iff noSuch count stdin n rest).1 hacc
  have hnU : n < UINT_RANGE := hU n (by rw [hpre]; simp)
  have hidx := indexOf_eq n hn.1 hnU
  exact ⟨hidx, by omega⟩

/-- C5: the selection loop accepts an entered number `n` exactly when
`1 <= n <= count`. The loop ends with `n` and leaves `rest` on the console
if and only if `n` is the first entry in range: the console is `pre`, then
`n`, then `rest`, with every entry of `pre` out of range. Each entry of `pre`
is read and refused with the "no such" message before the next entry is
read, and the index `input - 1` computed from the accepted entry is
`n - 1 < count`, inside the enumerated sequence: the platform index and the
device index `main` picks are within the bounds of `platforms` and `devices`. -/
theorem selection_accepts_first_entry_in_range {α : Type} (noSuch : Msg α) (count : Nat)
    (stdin : List Nat) (hU : ∀ m ∈ stdin, m < UINT_RANGE) (n : Nat) (rest : List Nat) :
    ((readSelection noSuch count stdin).accepted = some (n, rest) ↔
      ∃ pre, stdin = pre ++ n :: rest ∧ (∀ m ∈ pre, m < 1 ∨ m > count) ∧
        (1 ≤ n ∧ n ≤ count)) ∧
    ((readSelection noSuch count stdin).accepted = some (n, rest) →
      (∃ pre, stdin = pre ++ n :: rest ∧
        (readSelection noSuch count stdin).events =
          pre.flatMap (fun m => [Event.cin m, Event.cout noSuch]) ++ [Event.cin n]) ∧
      indexOf n = n - 1 ∧ indexOf n < count) ∧
    (∀ (env : Env α) (t : List (Event α)) (p : Nat) (r : List Nat), env.stdin = stdin →
      choosePlatform env = (t, some (p, r)) → p < env.platforms.length) ∧
    (∀ (env : Env α) (platform : Nat) (t : List (Event α)) (d : Nat) (r : List Nat),
      chooseDevice env platform stdin = (t, some (d, r)) →
      d < (env.devices platform).length) := by
  refine ⟨readSelection_accepted_iff noSuch count stdin n rest, ?_, ?_, ?_⟩
  · intro hacc
    obtain ⟨pre, hpre, hrej, hn⟩ :=
      (readSelection_accepted_iff noSuch count stdin n rest).1 hacc
    refine ⟨⟨pre, hpre, ?_⟩, accepted_index_in_bounds noSuch count stdin hU n rest hacc⟩
    cases stdin with
    | nil =>
      have := congrArg List.length hpre
      simp at this
      omega
    | cons x xs =>
      simp only [readSelection]
      exact selectWhile_events noSuch count xs x n pre rest hpre hrej hn
  · intro env t p r hs h
    obtain ⟨input, hacc, hp⟩ := choosePlatform_accepted env t p r h
    rw [hs] at hacc
    rw [hp]
    exact (accepted_index_in_bounds _ _ stdin hU input r hacc).2
  · intro env platform t d r h
    obtain ⟨input, hacc, hd⟩ := chooseDevice_accepted env platform stdin t d r h
    rw [hd]
    exact (accepted_index_in_bounds _ _ stdin hU input r hacc).2

/-- Witness of C5: two platforms, the user types 0, 7, 2, 1. The entries 0
and 7 are refused, 2 is accepted, 1 stays on the console, the index is 1. -/
theorem selection_accepts_first_entry_in_range_witness :
    (∀ m ∈ [0, 7, 2, 1], m < UINT_RANGE) ∧
    (readSelection (Msg.noSuchPlatform : Msg Float32) 2 [0, 7, 2, 1]).accepted = some (2, [1]) ∧
    (readSelection (Msg.noSuchPlatform : Msg Float32) 2 [0, 7, 2, 1]).events =
      [Event.cin 0, Event.cout Msg.noSuchPlatform, Event.cin 7, Event.cout Msg.noSuchPlatform,
       Event.cin 2] ∧
    indexOf 2 = 1 ∧ indexOf 2 < 2 :=
  have hU : ∀ m ∈ [0, 7, 2, 1], m < UINT_RANGE := by decide
  have h := selection_accepts_first_entry_in_range (Msg.noSuchPlatform : Msg Float32) 2 [0, 7, 2, 1]
    hU 2 [1]
  ⟨hU, rfl, rfl, (h.2.1 rfl).2.1, (h.2.1 rfl).2.2⟩

/-! ## The state of a run that reaches the end -/

theorem list_of_length_ten {α : Type} (a : List α) (h : a.length = 10) :
    ∃ a0 a1 a2 a3 a4 a5 a6 a7 a8 a9, a = [a0, a1, a2, a3, a4, a5, a6, a7, a8, a9] := by
  match a, h with
  | [a0, a1, a2, a3, a4, a5, a6, a7, a8, a9], _ => exact ⟨_, _, _, _, _, _, _, _, _, _, rfl⟩

/-- The kernel object after a successful build and the three `setArg` calls. -/
theorem bindArguments_built :
    bindArguments (extractKernel CL_SUCCESS source_string "parallel_add") =
      { src := some parallel_add,
        args := [some BufferName.clBufferA, some BufferName.clBufferB,
          some BufferName.clOutput] } := by
  decide

/-- The kernel object after a failed build: no kernel, nothing bound. -/
theorem bindArguments_failed (status : Int) (h : status ≠ 0) :
    bindArguments (extractKernel status source_string "parallel_add") =
      { src := none, args := [] } := by
  have h2 : ¬ status = CL_SUCCESS := h
  simp [extractKernel, h2, bindArguments, setArg]

/-- A run that reaches the end has the state `compute` leaves. -/
theorem mainWith_of_finished {α : Type} [Add α] [Zero α] (env : Env α) (a b : List α) (l : Nat)
    (hfin : (mainWith env a b l).finished = true) :
    (mainWith env a b l).kernel = (compute env a b l).kernel ∧
    (mainWith env a b l).mem = (compute env a b l).mem ∧
    (mainWith env a b l).launchStatus = (compute env a b l).launchStatus ∧
    (mainWith env a b l).readStatus = (compute env a b l).readStatus ∧
    (mainWith env a b l).cpuOutput = (compute env a b l).cpuOutput := by
  rcases mainWith_shape env a b l with ⟨c, hc, h⟩ | ⟨c, p, u, c2, hc, hc2, h⟩ |
    ⟨c, p, u, c2, d, v, hc, hc2, h⟩
  · rw [h] at hfin; cases hfin
  · rw [h] at hfin; cases hfin
  · rw [h]; exact ⟨rfl, rfl, rfl, rfl, rfl⟩

/-- Whether a run reaches the end depends on the console and the enumerations only. -/
theorem mainWith_finished_eq {α : Type} [Add α] [Zero α] (env : Env α) (a b : List α) (l : Nat) :
    (mainWith env a b l).finished = (discover env).2 := by
  unfold mainWith
  rcases hd : discover env with ⟨t, _ | _⟩ <;> rfl

/-- The work-items of ten elements are the ids 0 to 9, in this order, for each
of the local sizes 1, 2, 5 and 10. -/
theorem workItems_ten (l : Nat) (hl : l = 1 ∨ l = 2 ∨ l = 5 ∨ l = 10) :
    workItems numElements l = List.range 10 := by
  rcases hl with rfl | rfl | rfl | rfl <;> decide

/-- A launch of ten work-items with local size 1, 2, 5 or 10 does what the
launch with local size 10 does. -/
theorem launch_grouping {α : Type} [Add α] (k : KernelObj) (mem : Mem α) (l : Nat)
    (hl : l = 1 ∨ l = 2 ∨ l = 5 ∨ l = 10) :
    enqueueNDRangeKernel k numElements l mem = enqueueNDRangeKernel k numElements 10 mem := by
  have hw := workItems_ten l hl
  have hw10 := workItems_ten 10 (by simp)
  have hdiv : ¬ (l = 0 ∨ numElements % l ≠ 0) := by
    rcases hl with rfl | rfl | rfl | rfl <;> decide
  have hdiv10 : ¬ (10 = 0 ∨ numElements % 10 ≠ 0) := by decide
  unfold enqueueNDRangeKernel
  cases k.src with
  | none => rfl
  | some s => simp only [hw, hw10, if_neg hdiv, if_neg hdiv10]

/-- The launch of `main` after a successful build, on host arrays of ten
elements: it succeeds, leaves the input buffers as created and fills the
output buffer with `y[i] + x[i]`. -/
theorem launch_built {α : Type} [Add α] (env : Env α) (a b : List α)
    (ha : a.length = numElements) (hb : b.length = numElements) :
    (enqueueNDRangeKernel
      (bindArguments (extractKernel CL_SUCCESS source_string "parallel_add"))
      numElements 10 (createBuffers env a b)).1 = CL_SUCCESS ∧
    (enqueueNDRangeKernel
      (bindArguments (extractKernel CL_SUCCESS source_string "parallel_add"))
      numElements 10 (createBuffers env a b)).2 BufferName.clBufferA =
        some { flags := inFlags, sizeBytes := 40, data := a } ∧
    (enqueueNDRangeKernel
      (bindArguments (extractKernel CL_SUCCESS source_string "parallel_add"))
      numElements 10 (createBuffers env a b)).2 BufferName.clBufferB =
        some { flags := inFlags, sizeBytes := 40, data := b } ∧
    (enqueueNDRangeKernel
      (bindArguments (extractKernel CL_SUCCESS source_string "parallel_add"))
      numElements 10 (createBuffers env a b)).2 BufferName.clOutput =
        some { flags := outFlags, sizeBytes := 40,
               data := List.zipWith (fun x y => y + x) a b } := by
  obtain ⟨a0, a1, a2, a3, a4, a5, a6, a7, a8, a9, rfl⟩ := list_of_length_ten a ha
  obtain ⟨b0, b1, b2, b3, b4, b5, b6, b7, b8, b9, rfl⟩ := list_of_length_ten b hb
  exact ⟨rfl, rfl, rfl, rfl⟩

/-- A launch of a valid kernel with all arguments bound whose global size is
not a multiple of the local size is refused and leaves the memory as it was. -/
theorem launch_invalid_size {α : Type} [Add α] (g l : Nat) (mem : Mem α)
    (hbad : l = 0 ∨ g % l ≠ 0) :
    enqueueNDRangeKernel
      (bindArguments (extractKernel CL_SUCCESS source_string "parallel_add")) g l mem =
      (CL_INVALID_WORK_GROUP_SIZE, mem) := by
  rw [bindArguments_built]
  simp only [enqueueNDRangeKernel]
  rw [if_neg (by decide), if_pos hbad]

/-- The readback of `main` from an output buffer of 40 bytes holding ten
elements replaces the whole of `cpuOutput`. -/
theorem readback_whole {α : Type} [Zero α] (mem : Mem α) (flags : MemFlags) (data : List α)
    (hd : data.length = numElements)
    (hm : mem BufferName.clOutput = some { flags := flags, sizeBytes := 40, data := data }) :
    enqueueReadBuffer mem BufferName.clOutput 0 (numElements * sizeof_cl_float)
      (List.replicate numElements (0 : α)) = (CL_SUCCESS, data) := by
  obtain ⟨d0, d1, d2, d3, d4, d5, d6, d7, d8, d9, rfl⟩ := list_of_length_ten data hd
  simp only [enqueueReadBuffer, hm]
  rfl

/-- The state of a run that reaches the end after a successful build, on host
arrays of ten elements, with local size 1, 2, 5 or 10. -/
theorem compute_built {α : Type} [Add α] [Zero α] (env : Env α) (a b : List α) (l : Nat)
    (ha : a.length = numElements) (hb : b.length = numElements)
    (hbuild : env.buildStatus = CL_SUCCESS) (hl : l = 1 ∨ l = 2 ∨ l = 5 ∨ l = 10) :
    (compute env a b l).launchStatus = some CL_SUCCESS ∧
    (compute env a b l).readStatus = some CL_SUCCESS ∧
    (compute env a b l).cpuOutput = some (List.zipWith (fun x y => y + x) a b) ∧
    (compute env a b l).mem BufferName.clBufferA =
      some { flags := inFlags, sizeBytes := 40, data := a } ∧
    (compute env a b l).mem BufferName.clBufferB =
      some { flags := inFlags, sizeBytes := 40, data := b } ∧
    (compute env a b l).mem BufferName.clOutput =
      some { flags := outFlags, sizeBytes := 40,
             data := List.zipWith (fun x y => y + x) a b } := by
  obtain ⟨h1, hA, hB, hO⟩ := launch_built env a b ha hb
  have hlen : (List.zipWith (fun x y => y + x) a b).length = numElements := by
    simp [ha, hb]
  have hread := readback_whole _ _ _ hlen hO
  simp only [compute, hbuild, launch_grouping _ _ l hl]
  exact ⟨congrArg some h1, congrArg (fun r => some r.1) hread,
    congrArg (fun r => some r.2) hread, hA, hB, hO⟩

/-- The calls of a run that reaches the end, around its only launch: before
it the three buffers are created and the three arguments bound, after it the
output buffer is read once. -/
theorem finished_run_split {α : Type} [Add α] [Zero α] (env : Env α) (a b : List α) (l : Nat)
    (hfin : (mainWith env a b l).finished = true) :
    ∃ pre c, (mainWith env a b l).trace =
        pre ++ Event.enqueueNDRangeKernel numElements l ::
          Event.enqueueReadBuffer BufferName.clOutput true 0 (numElements * sizeof_cl_float)
            HostArray.cpuOutput :: (c ++ [Event.pause]) ∧
      pre.filterMap Event.allocation =
        [(BufferName.clBufferA, Access.readOnly, numElements * sizeof_cl_int),
         (BufferName.clBufferB, Access.readOnly, numElements * sizeof_cl_int),
         (BufferName.clOutput, Access.writeOnly, numElements * sizeof_cl_int)] ∧
      pre.filterMap Event.binding =
        [(0, BufferName.clBufferA), (1, BufferName.clBufferB), (2, BufferName.clOutput)] ∧
      pre.filterMap Event.launch = [] ∧ pre.filterMap Event.hostRead = [] ∧
      pre.filterMap Event.stage = pipelineOrder.take 13 ∧ AllConsole c := by
  rcases mainWith_shape env a b l with ⟨c, hc, h⟩ | ⟨c, p, u, c2, hc, hc2, h⟩ |
    ⟨c, p, u, c2, d, v, hc, hc2, h⟩
  · rw [h] at hfin; cases hfin
  · rw [h] at hfin; cases hfin
  · obtain ⟨r, c3, hr, hc3, -, ht⟩ := compute_trace env a b l
    refine ⟨(Event.platformGet :: c ++ [Event.selectPlatform p, Event.cout u]) ++
        (Event.getDevices :: c2 ++ [Event.selectDevice d, Event.cout v]) ++
        ([Event.createContext, Event.createProgram, Event.build] ++ r ++
        [Event.createKernel "parallel_add",
         Event.createBuffer BufferName.clBufferA inFlags (numElements * sizeof_cl_int)
           (some HostArray.cpuArrayA),
         Event.createBuffer BufferName.clBufferB inFlags (numElements * sizeof_cl_int)
           (some HostArray.cpuArrayB),
         Event.createBuffer BufferName.clOutput outFlags (numElements * sizeof_cl_int) none,
         Event.setArg 0 BufferName.clBufferA,
         Event.setArg 1 BufferName.clBufferB,
         Event.setArg 2 BufferName.clOutput,
         Event.createQueue]), c3, ?_, ?_, ?_, ?_, ?_, ?_, hc3⟩
    · rw [h]
      simp only [ht]
      simp only [List.append_assoc, List.cons_append, List.nil_append]
    · simp [List.filterMap_append, Event.allocation, allocation_console hc,
        allocation_console hc2, allocation_console hr, inFlags, outFlags]
    · simp [List.filterMap_append, Event.binding, binding_console hc,
        binding_console hc2, binding_console hr]
    · simp [List.filterMap_append, Event.launch, launch_console hc,
        launch_console hc2, launch_console hr]
    · simp [List.filterMap_append, Event.hostRead, hostRead_console hc,
        hostRead_console hc2, hostRead_console hr]
    · simp [List.filterMap_append, Event.stage, stage_console hc,
        stage_console hc2, stage_console hr, pipelineOrder]

/-- The fields of the run `compute` returns, in terms of the runtime calls. -/
theorem compute_fields {α : Type} [Add α] [Zero α] (env : Env α) (a b : List α) (l : Nat) :
    (compute env a b l).kernel =
      some (bindArguments (extractKernel env.buildStatus source_string "parallel_add")) ∧
    (compute env a b l).mem =
      (enqueueNDRangeKernel
        (bindArguments (extractKernel env.buildStatus source_string "parallel_add"))
        numElements l (createBuffers env a b)).2 ∧
    (compute env a b l).launchStatus =
      some (enqueueNDRangeKernel
        (bindArguments (extractKernel env.buildStatus source_string "parallel_add"))
        numElements l (createBuffers env a b)).1 ∧
    (compute env a b l).readStatus =
      some (enqueueReadBuffer (compute env a b l).mem BufferName.clOutput 0
        (numElements * sizeof_cl_float) (List.replicate numElements (0 : α))).1 ∧
    (compute env a b l).cpuOutput =
      some (enqueueReadBuffer (compute env a b l).mem BufferName.clOutput 0
        (numElements * sizeof_cl_float) (List.replicate numElements (0 : α))).2 :=
  ⟨rfl, rfl, rfl, rfl, rfl⟩

/-- The three buffers as created from host arrays of ten elements. -/
theorem createBuffers_eq {α : Type} (env : Env α) (a b : List α)
    (ha : a.length = numElements) (hb : b.length = numElements) :
    createBuffers env a b BufferName.clBufferA =
      some { flags := inFlags, sizeBytes := 40, data := a } ∧
    createBuffers env a b BufferName.clBufferB =
      some { flags := inFlags, sizeBytes := 40, data := b } ∧
    createBuffers env a b BufferName.clOutput =
      some { flags := outFlags, sizeBytes := 40, data := (List.range 10).map env.uninit } := by
  obtain ⟨a0, a1, a2, a3, a4, a5, a6, a7, a8, a9, rfl⟩ := list_of_length_ten a ha
  obtain ⟨b0, b1, b2, b3, b4, b5, b6, b7, b8, b9, rfl⟩ := list_of_length_ten b hb
  exact ⟨rfl, rfl, rfl⟩

/-- The state of a run that reaches the end after a failed build: the launch
is refused for want of a kernel, the buffers stay as created, and the
readback returns what the output buffer held at creation. -/
theorem compute_failed {α : Type} [Add α] [Zero α] (env : Env α) (a b : List α) (l : Nat)
    (ha : a.length = numElements) (hb : b.length = numElements)
    (hfail : env.buildStatus ≠ 0) :
    (compute env a b l).launchStatus = some CL_INVALID_KERNEL ∧
    (compute env a b l).readStatus = some CL_SUCCESS ∧
    (compute env a b l).cpuOutput = some ((List.range 10).map env.uninit) ∧
    (compute env a b l).mem = createBuffers env a b := by
  obtain ⟨-, -, hO⟩ := createBuffers_eq env a b ha hb
  have hread := readback_whole (createBuffers env a b) _ _ (by simp [numElements]) hO
  obtain ⟨-, hM, hL, hR, hC⟩ := compute_fields env a b l
  have hlaunch : enqueueNDRangeKernel
      (bindArguments (extractKernel env.buildStatus source_string "parallel_add"))
      numElements l (createBuffers env a b) = (CL_INVALID_KERNEL, createBuffers env a b) := by
    rw [bindArguments_failed _ hfail]
    rfl
  rw [hlaunch] at hM hL
  rw [hM] at hR hC
  exact ⟨hL, hR.trans (congrArg (fun r => some r.1) hread),
    hC.trans (congrArg (fun r => some r.2) hread), hM⟩

/-- The state of a run that reaches the end after a successful build whose
local size does not divide the global size: the launch is refused, the
buffers stay as created, and the readback returns what the output buffer held
at creation. -/
theorem compute_invalid_size {α : Type} [Add α] [Zero α] (env : Env α) (a b : List α) (l : Nat)
    (ha : a.length = numElements) (hb : b.length = numElements)
    (hbuild : env.buildStatus = CL_SUCCESS) (hbad : l = 0 ∨ numElements % l ≠ 0) :
    (compute env a b l).launchStatus = some CL_INVALID_WORK_GROUP_SIZE ∧
    (compute env a b l).readStatus = some CL_SUCCESS ∧
    (compute env a b l).cpuOutput = some ((List.range 10).map env.uninit) ∧
    (compute env a b l).mem = createBuffers env a b := by
  obtain ⟨-, -, hO⟩ := createBuffers_eq env a b ha hb
  have hread := readback_whole (createBuffers env a b) _ _ (by simp [numElements]) hO
  obtain ⟨-, hM, hL, hR, hC⟩ := compute_fields env a b l
  rw [hbuild, launch_invalid_size numElements l _ hbad] at hM hL
  rw [hM] at hR hC
  exact ⟨hL, hR.trans (congrArg (fun r => some r.1) hread),
    hC.trans (congrArg (fun r => some r.2) hread), hM⟩

/-- The local sizes that divide ten. -/
theorem divisors_of_ten (l : Nat) (h : ¬ (l = 0 ∨ numElements % l ≠ 0)) :
    l = 1 ∨ l = 2 ∨ l = 5 ∨ l = 10 := by
  unfold numElements at h
  have h0 : l ≠ 0 := fun h0 => h (Or.inl h0)
  have hm : 10 % l = 0 := by
    by_contra hne
    exact h (Or.inr hne)
  have hle : l ≤ 10 := Nat.le_of_dvd (by decide) (Nat.dvd_of_mod_eq_zero hm)
  interval_cases l <;> simp_all

/-- A run that reaches the end has made all the calls of the pipeline, in order. -/
theorem pipeline_shape_of_finished {α : Type} [Add α] [Zero α] (env : Env α) (a b : List α)
    (l : Nat) (hfin : (mainWith env a b l).finished = true) :
    (mainWith env a b l).stages = pipelineOrder := by
  obtain ⟨pre, c, ht, -, -, -, -, hs, hc⟩ := finished_run_split env a b l hfin
  simp [Run.stages, ht, hs, List.filterMap_append, Event.stage, stage_console hc, pipelineOrder]

/-- One work-item of the launch of `main` keeps the invariant and adds its id
to the ids done. -/
theorem execItem_step {α : Type} [Add α] (env : Env α) (a b : List α)
    (ha : a.length = numElements) (hb : b.length = numElements) (done : List Nat) (m : Mem α)
    (hinv : LaunchInv env a b done m) (i : Nat) (hi : i < numElements) :
    ∃ m2, execItem parallel_add
        [some BufferName.clBufferA, some BufferName.clBufferB, some BufferName.clOutput] m i =
        some m2 ∧ LaunchInv env a b (i :: done) m2 := by
  obtain ⟨hA, hB, d, hO, hd, hval⟩ := hinv
  have hia : i < a.length := by omega
  have hib : i < b.length := by omega
  have hid : i < d.length := by omega
  refine ⟨Function.update m BufferName.clOutput
    (some { flags := outFlags, sizeBytes := 40, data := d.set i (b[i] + a[i]) }), ?_, ?_, ?_, ?_⟩
  · simp [execItem, parallel_add, execStore, Expr.eval, hA, hB, hO, inFlags, outFlags,
      hia, hib, hid, List.getElem?_eq_getElem]
  · rw [Function.update_noteq (by decide)]; exact hA
  · rw [Function.update_noteq (by decide)]; exact hB
  · refine ⟨d.set i (b[i] + a[i]), by simp, by simp [hd], ?_⟩
    intro j hj
    by_cases hji : j = i
    · subst hji
      simp [List.getElem?_zipWith, hia, hib, hid, List.getElem?_eq_getElem]
    · have hne : ¬ i = j := fun h => hji h.symm
      rw [List.getElem?_set_ne hne, hval j hj]
      simp [hji]

/-- Work-items with ids below ten, run in any order, keep the invariant. -/
theorem runItems_inv {α : Type} [Add α] (env : Env α) (a b : List α)
    (ha : a.length = numElements) (hb : b.length = numElements) (ids : List Nat) :
    ∀ (done : List Nat) (m : Mem α), LaunchInv env a b done m →
      (∀ i ∈ ids, i < numElements) →
      ∃ m2, runItems parallel_add
          [some BufferName.clBufferA, some BufferName.clBufferB, some BufferName.clOutput]
          ids m = some m2 ∧ LaunchInv env a b (ids.reverse ++ done) m2 := by
  induction ids with
  | nil =>
    intro done m hinv _
    exact ⟨m, rfl, by simpa using hinv⟩
  | cons i ids ih =>
    intro done m hinv hlt
    obtain ⟨m1, h1, hinv1⟩ :=
      execItem_step env a b ha hb done m hinv i (hlt i (List.mem_cons_self _ _))
    obtain ⟨m2, h2, hinv2⟩ := ih (i :: done) m1 hinv1
      (fun j hj => hlt j (List.mem_cons_of_mem _ hj))
    refine ⟨m2, ?_, by simpa using hinv2⟩
    simp only [runItems, List.foldlM_cons, h1] at h2 ⊢
    exact h2

/-- The ten work-items of the launch of `main`, run in any order, leave the
input buffers as created and fill the output buffer with `y[i] + x[i]`. -/
theorem runItems_any_order {α : Type} [Add α] (env : Env α) (a b : List α)
    (ha : a.length = numElements) (hb : b.length = numElements) (ids : List Nat)
    (hperm : ids.Perm (List.range numElements)) :
    ∃ m, runItems parallel_add
        [some BufferName.clBufferA, some BufferName.clBufferB, some BufferName.clOutput]
        ids (createBuffers env a b) = some m ∧
      m BufferName.clBufferA = some { flags := inFlags, sizeBytes := 40, data := a } ∧
      m BufferName.clBufferB = some { flags := inFlags, sizeBytes := 40, data := b } ∧
      m BufferName.clOutput =
        some { flags := outFlags, sizeBytes := 40,
               data := List.zipWith (fun x y => y + x) a b } := by
  obtain ⟨hA, hB, hO⟩ := createBuffers_eq env a b ha hb
  have hinit : LaunchInv env a b [] (createBuffers env a b) := by
    refine ⟨hA, hB, _, hO, by simp [numElements], ?_⟩
    intro i hi
    have hi2 : i < 10 := hi
    simp [hi2]
  have hlt : ∀ i ∈ ids, i < numElements := fun i hi => List.mem_range.1 (hperm.subset hi)
  obtain ⟨m, hm, hA2, hB2, d, hO2, hd, hval⟩ := runItems_inv env a b ha hb ids [] _ hinit hlt
  refine ⟨m, hm, hA2, hB2, ?_⟩
  rw [hO2]
  have hdz : d = List.zipWith (fun x y => y + x) a b := by
    apply List.ext_getElem?
    intro i
    by_cases hi : i < numElements
    · rw [hval i hi]
      have : i ∈ ids := hperm.symm.subset (List.mem_range.2 hi)
      simp [this]
    · have h1 : d.length ≤ i := by omega
      have h2 : (List.zipWith (fun x y => y + x) a b).length ≤ i := by
        simp [ha, hb]; omega
      rw [List.getElem?_eq_none h1, List.getElem?_eq_none h2]
  rw [hdz]

/-! ## Binary32 arithmetic of `main` -/

/-- Binary32 addition is commutative. -/
theorem Float32.add_comm (x y : Float32) : x + y = y + x := by
  show Float32.add x y = Float32.add y x
  cases x with
  | nan => cases y <;> rfl
  | inf s =>
    cases y with
    | nan => rfl
    | inf t => cases s <;> cases t <;> rfl
    | fin n m e => rfl
  | fin n1 m1 e1 =>
    cases y with
    | nan => rfl
    | inf t => rfl
    | fin n2 m2 e2 =>
      simp only [Float32.add]
      rw [min_comm e2 e1, Bool.and_comm n2 n1,
        Int.add_comm (Float32.signed n2 _) (Float32.signed n1 _)]

set_option maxRecDepth 100000 in
/-- Known binary32 facts the model reproduces: `0.1f` is `13421773 * 2^-27`,
`1.0f` is `2^23 * 2^-23`, `16777216.0f + 1.0f` is `16777216.0f` (a tie, to
the even significand), `16777217` and `16777219` round to `16777216` and
`16777220`, the largest finite datum is `(2^24 - 1) * 2^104`, half a unit
above it overflows to infinity, and `x + (-x)` is `+0`. -/
theorem Float32.model_checks :
    Float32.lit 1 10 = Float32.fin false 13421773 (-27) ∧
    Float32.lit 1 1 = Float32.fin false 8388608 (-23) ∧
    Float32.lit 16777216 1 + Float32.lit 1 1 = Float32.lit 16777216 1 ∧
    Float32.lit 16777217 1 = Float32.fin false 8388608 1 ∧
    Float32.lit 16777219 1 = Float32.fin false 8388610 1 ∧
    Float32.lit (2 ^ 128 - 2 ^ 103 - 1) 1 = Float32.fin false 16777215 104 ∧
    Float32.lit (2 ^ 128 - 2 ^ 103) 1 = Float32.inf false ∧
    Float32.lit 1 (2 ^ 149) = Float32.fin false 1 (-149) ∧
    Float32.lit 3 (2 ^ 150) = Float32.fin false 2 (-149) ∧
    Float32.fin true 8388608 (-23) + Float32.fin false 8388608 (-23) =
      Float32.fin false 0 (-149) := by
  refine ⟨?_, ?_, ?_, ?_, ?_, ?_, ?_, ?_, ?_, ?_⟩ <;> rfl

set_option maxRecDepth 100000 in
/-- The ten binary32 sums `y[i] + x[i]` of the arrays of `main`. -/
theorem main_sums :
    List.zipWith (fun x y => y + x) cpuArrayA cpuArrayB =
      [Float32.fin false 13421773 (-27), Float32.fin false 10066330 (-23),
       Float32.fin false 9646899 (-22), Float32.fin false 14260634 (-22),
       Float32.fin false 9437184 (-21), Float32.fin false 11744051 (-21),
       Float32.fin false 14050918 (-21), Float32.fin false 16357786 (-21),
       Float32.fin false 9332326 (-20), Float32.fin false 10485760 (-20)] := by
  rfl

set_option maxRecDepth 100000 in
/-- The ten sums are the `float` constants `0.1f, 1.2f, ..., 8.9f, 10.0f`. -/
theorem main_sums_constants :
    [Float32.lit 1 10, Float32.lit 12 10, Float32.lit 23 10, Float32.lit 34 10,
     Float32.lit 45 10, Float32.lit 56 10, Float32.lit 67 10, Float32.lit 78 10,
     Float32.lit 89 10, Float32.lit 100 10] =
      [Float32.fin false 13421773 (-27), Float32.fin false 10066330 (-23),
       Float32.fin false 9646899 (-22), Float32.fin false 14260634 (-22),
       Float32.fin false 9437184 (-21), Float32.fin false 11744051 (-21),
       Float32.fin false 14050918 (-21), Float32.fin false 16357786 (-21),
       Float32.fin false 9332326 (-20), Float32.fin false 10485760 (-20)] := by
  rfl

/-- Each of the ten sums is within `1e-5` of its decimal. -/
theorem main_sums_tolerance :
    List.Forall₂ (fun (x : Float32) (d : ℚ) => ∃ v : ℚ, x.toRat = some v ∧ |v - d| ≤ 1 / 100000)
      [Float32.fin false 13421773 (-27), Float32.fin false 10066330 (-23),
       Float32.fin false 9646899 (-22), Float32.fin false 14260634 (-22),
       Float32.fin false 9437184 (-21), Float32.fin false 11744051 (-21),
       Float32.fin false 14050918 (-21), Float32.fin false 16357786 (-21),
       Float32.fin false 9332326 (-20), Float32.fin false 10485760 (-20)]
      [0.1, 1.2, 2.3, 3.4, 4.5, 5.6, 6.7, 7.8, 8.9, 10.0] := by
  repeat' first
    | exact List.Forall₂.nil
    | refine List.Forall₂.cons ⟨_, rfl, ?_⟩ ?_
  all_goals norm_num [abs_le]

/-! ## The claims on the kernel, the buffers and the launch -/

/-- C1: for host arrays `a` and `b` of `N = 10` elements copied into the two
read-only buffers, after the launch of `parallel_add` over global size `N`
and the blocking readback, the host output array is `a[i] + b[i]` at every
`i < N` (the kernel computes `y[i] + x[i]`, `x` bound to `a` and `y` to `b`,
and the addition is commutative, as binary32 addition is); in particular the
run of `main`, with the `float` arrays `a = [0, ..., 9]` and
`b = [0.1, ..., 1.0]`, yields the `float` values
`[0.1, 1.2, 2.3, 3.4, 4.5, 5.6, 6.7, 7.8, 8.9, 10.0]`: each output is the
binary32 constant of that decimal, and within `1e-5` of the decimal. -/
theorem parallel_add_roundtrip :
    (∀ (α : Type) [Add α] [Zero α] (env : Env α) (a b : List α),
      a.length = numElements → b.length = numElements → (∀ u v : α, u + v = v + u) →
      env.buildStatus = CL_SUCCESS → (mainWith env a b 10).finished = true →
      (mainWith env a b 10).launchStatus = some CL_SUCCESS ∧
      (mainWith env a b 10).readStatus = some CL_SUCCESS ∧
      (mainWith env a b 10).cpuOutput = some (List.zipWith (fun x y => y + x) a b) ∧
      (mainWith env a b 10).cpuOutput = some (List.zipWith (fun x y => x + y) a b) ∧
      ∀ result, (mainWith env a b 10).cpuOutput = some result →
        result.length = numElements ∧
        ∀ i x y, i < numElements → a[i]? = some x → b[i]? = some y →
          result[i]? = some (x + y)) ∧
    (∀ u v : Float32, u + v = v + u) ∧
    (∀ env : Env Float32, env.buildStatus = CL_SUCCESS → (main env).finished = true →
      (main env).cpuOutput = some (List.zipWith (fun x y => x + y) cpuArrayA cpuArrayB) ∧
      (main env).cpuOutput =
        some [Float32.lit 1 10, Float32.lit 12 10, Float32.lit 23 10, Float32.lit 34 10,
          Float32.lit 45 10, Float32.lit 56 10, Float32.lit 67 10, Float32.lit 78 10,
          Float32.lit 89 10, Float32.lit 100 10] ∧
      (main env).cpuOutput =
        some [Float32.fin false 13421773 (-27), Float32.fin false 10066330 (-23),
          Float32.fin false 9646899 (-22), Float32.fin false 14260634 (-22),
          Float32.fin false 9437184 (-21), Float32.fin false 11744051 (-21),
          Float32.fin false 14050918 (-21), Float32.fin false 16357786 (-21),
          Float32.fin false 9332326 (-20), Float32.fin false 10485760 (-20)] ∧
      ∀ result, (main env).cpuOutput = some result →
        List.Forall₂
          (fun (x : Float32) (d : ℚ) => ∃ v : ℚ, x.toRat = some v ∧ |v - d| ≤ 1 / 100000)
          result [0.1, 1.2, 2.3, 3.4, 4.5, 5.6, 6.7, 7.8, 8.9, 10.0]) := by
  have key : ∀ (α : Type) [Add α] [Zero α] (env : Env α) (a b : List α),
      a.length = numElements → b.length = numElements →
      env.buildStatus = CL_SUCCESS → (mainWith env a b 10).finished = true →
      (mainWith env a b 10).launchStatus = some CL_SUCCESS ∧
      (mainWith env a b 10).readStatus = some CL_SUCCESS ∧
      (mainWith env a b 10).cpuOutput = some (List.zipWith (fun x y => y + x) a b) := by
    intro α _ _ env a b ha hb hbuild hfin
    obtain ⟨-, -, hL, hR, hO⟩ := mainWith_of_finished env a b 10 hfin
    obtain ⟨h1, h2, h3, -⟩ := compute_built env a b 10 ha hb hbuild (by simp)
    exact ⟨hL.trans h1, hR.trans h2, hO.trans h3⟩
  have hz : ∀ (α : Type) [Add α] (a b : List α), (∀ u v : α, u + v = v + u) →
      List.zipWith (fun x y => y + x) a b = List.zipWith (fun x y => x + y) a b := by
    intro α _ a b hcomm
    congr 1
    funext x y
    exact hcomm y x
  refine ⟨?_, Float32.add_comm, ?_⟩
  · intro α _ _ env a b ha hb hcomm hbuild hfin
    obtain ⟨h1, h2, h3⟩ := key α env a b ha hb hbuild hfin
    refine ⟨h1, h2, h3, by rw [h3, hz α a b hcomm], ?_⟩
    intro result hres
    rw [h3, hz α a b hcomm] at hres
    cases hres
    refine ⟨by simp [ha, hb], ?_⟩
    intro i x y _ hx hy
    simp [List.getElem?_zipWith, hx, hy]
  · intro env hbuild hfin
    have h3 : (main env).cpuOutput =
        some (List.zipWith (fun x y => y + x) cpuArrayA cpuArrayB) :=
      (key Float32 env cpuArrayA cpuArrayB rfl rfl hbuild hfin).2.2
    have h4 := h3
    rw [main_sums] at h4
    refine ⟨?_, ?_, h4, ?_⟩
    · rw [h3, hz Float32 cpuArrayA cpuArrayB Float32.add_comm]
    · rw [h4, main_sums_constants]
    · intro result hres
      rw [h4] at hres
      cases hres
      exact main_sums_tolerance

/-- Witness of C1: the run of `main` with one platform, one device, the user
typing `1` twice and a successful build. -/
theorem parallel_add_roundtrip_witness :
    (demoEnv 0).buildStatus = CL_SUCCESS ∧ (main (demoEnv 0)).finished = true ∧
    (main (demoEnv 0)).cpuOutput =
      some [Float32.lit 1 10, Float32.lit 12 10, Float32.lit 23 10, Float32.lit 34 10,
        Float32.lit 45 10, Float32.lit 56 10, Float32.lit 67 10, Float32.lit 78 10,
        Float32.lit 89 10, Float32.lit 100 10] ∧
    (mainWith (demoEnv 0) cpuArrayA cpuArrayB 10).cpuOutput =
      some (List.zipWith (fun x y => x + y) cpuArrayA cpuArrayB) :=
  ⟨rfl, rfl, (parallel_add_roundtrip.2.2 (demoEnv 0) rfl rfl).2.1,
    (parallel_add_roundtrip.1 Float32 (demoEnv 0) cpuArrayA cpuArrayB rfl rfl
      Float32.add_comm rfl rfl).2.2.2.1⟩

/-- C6: for the same host arrays and global size 10, the run with local work
size 1 and the run with local work size 5 produce the same output array (and
the same launch status) as the run with local work size 10. When the build
succeeded and the run reaches the end, that output is the array of the sums,
and the output buffer is the one the ten work-items produce in any order. -/
theorem grouping_does_not_change_output {α : Type} [Add α] [Zero α] (env : Env α)
    (a b : List α) :
    (mainWith env a b 1).cpuOutput = (mainWith env a b 10).cpuOutput ∧
    (mainWith env a b 5).cpuOutput = (mainWith env a b 10).cpuOutput ∧
    (mainWith env a b 1).launchStatus = (mainWith env a b 10).launchStatus ∧
    (mainWith env a b 5).launchStatus = (mainWith env a b 10).launchStatus ∧
    (a.length = numElements → b.length = numElements → env.buildStatus = CL_SUCCESS →
      (mainWith env a b 10).finished = true →
      (mainWith env a b 1).cpuOutput = some (List.zipWith (fun x y => y + x) a b) ∧
      (mainWith env a b 5).cpuOutput = some (List.zipWith (fun x y => y + x) a b) ∧
      (mainWith env a b 10).cpuOutput = some (List.zipWith (fun x y => y + x) a b) ∧
      ∀ ids : List Nat, ids.Perm (List.range numElements) →
        (runItems parallel_add
          [some BufferName.clBufferA, some BufferName.clBufferB, some BufferName.clOutput]
          ids (createBuffers env a b)).map (fun m => m BufferName.clOutput) =
        some ((mainWith env a b 10).mem BufferName.clOutput)) := by
  have h1 : ∀ l, (l = 1 ∨ l = 2 ∨ l = 5 ∨ l = 10) →
      (mainWith env a b l).cpuOutput = (mainWith env a b 10).cpuOutput ∧
      (mainWith env a b l).launchStatus = (mainWith env a b 10).launchStatus := by
    intro l hl
    have hc : (compute env a b l).cpuOutput = (compute env a b 10).cpuOutput ∧
        (compute env a b l).launchStatus = (compute env a b 10).launchStatus := by
      obtain ⟨-, hM, hL, -, hC⟩ := compute_fields env a b l
      obtain ⟨-, hM2, hL2, -, hC2⟩ := compute_fields env a b 10
      rw [launch_grouping _ _ l hl] at hM hL
      rw [hM] at hC
      rw [hM2] at hC2
      exact ⟨hC.trans hC2.symm, hL.trans hL2.symm⟩
    unfold mainWith
    rcases hd : discover env with ⟨t, _ | _⟩
    · exact ⟨rfl, rfl⟩
    · exact hc
  refine ⟨(h1 1 (by simp)).1, (h1 5 (by simp)).1, (h1 1 (by simp)).2, (h1 5 (by simp)).2, ?_⟩
  intro ha hb hbuild hfin
  obtain ⟨-, -, hout, -, -, hO⟩ := compute_built env a b 10 ha hb hbuild (by simp)
  have h10 : (mainWith env a b 10).cpuOutput = some (List.zipWith (fun x y => y + x) a b) :=
    (mainWith_of_finished env a b 10 hfin).2.2.2.2.trans hout
  refine ⟨(h1 1 (by simp)).1.trans h10, (h1 5 (by simp)).1.trans h10, h10, ?_⟩
  intro ids hperm
  obtain ⟨m, hm, -, -, hmO⟩ := runItems_any_order env a b ha hb ids hperm
  rw [(mainWith_of_finished env a b 10 hfin).2.1, hO, hm, Option.map_some', hmO]

/-- Witness of C6: the arrays of `main` with one platform, one device, the
user typing `1` twice and a successful build. -/
theorem grouping_does_not_change_output_witness :
    cpuArrayA.length = numElements ∧ cpuArrayB.length = numElements ∧
    (demoEnv 0).buildStatus = CL_SUCCESS ∧
    (mainWith (demoEnv 0) cpuArrayA cpuArrayB 10).finished = true ∧
    (mainWith (demoEnv 0) cpuArrayA cpuArrayB 1).cpuOutput =
      some (List.zipWith (fun x y => y + x) cpuArrayA cpuArrayB) ∧
    (mainWith (demoEnv 0) cpuArrayA cpuArrayB 5).cpuOutput =
      (mainWith (demoEnv 0) cpuArrayA cpuArrayB 10).cpuOutput :=
  ⟨rfl, rfl, rfl, rfl,
    ((grouping_does_not_change_output (demoEnv 0) cpuArrayA cpuArrayB).2.2.2.2
      rfl rfl rfl rfl).1,
    (grouping_does_not_change_output (demoEnv 0) cpuArrayA cpuArrayB).2.1⟩

/-- C7: when the launch is enqueued every declared parameter of `parallel_add`
is bound. The kernel declares exactly the three parameters `x`, `y`, `z`; the
`setArg` calls made before the only launch of the run are, in this order,
position 0 with `clBufferA`, position 1 with `clBufferB` and position 2 with
`clOutput`, none is made after it, and after a successful build the kernel
object holds exactly these three bindings at the launch. -/
theorem arguments_bound_at_launch {α : Type} [Add α] [Zero α] (env : Env α) (a b : List α)
    (l : Nat) (hfin : (mainWith env a b l).finished = true) :
    parallel_add.params = ["x", "y", "z"] ∧ parallel_add.params.length = 3 ∧
    (∃ pre post, (mainWith env a b l).trace =
        pre ++ Event.enqueueNDRangeKernel numElements l :: post ∧
      pre.filterMap Event.launch = [] ∧ post.filterMap Event.launch = [] ∧
      pre.filterMap Event.binding =
        [(0, BufferName.clBufferA), (1, BufferName.clBufferB), (2, BufferName.clOutput)] ∧
      post.filterMap Event.binding = []) ∧
    (env.buildStatus = CL_SUCCESS →
      (mainWith env a b l).kernel =
        some { src := some parallel_add,
               args := [some BufferName.clBufferA, some BufferName.clBufferB,
                 some BufferName.clOutput] }) := by
  refine ⟨rfl, rfl, ?_, ?_⟩
  · obtain ⟨pre, c, ht, -, hb, hl, -, -, hc⟩ := finished_run_split env a b l hfin
    refine ⟨pre, _, ht, hl, ?_, hb, ?_⟩
    · simp [List.filterMap_append, Event.launch, launch_console hc]
    · simp [List.filterMap_append, Event.binding, binding_console hc]
  · intro hbuild
    rw [(mainWith_of_finished env a b l hfin).1, (compute_fields env a b l).1, hbuild,
      bindArguments_built]

/-- Witness of C7: the run of `main` with one platform, one device, the user
typing `1` twice and a successful build. -/
theorem arguments_bound_at_launch_witness :
    (main (demoEnv 0)).finished = true ∧
    (main (demoEnv 0)).kernel =
      some { src := some parallel_add,
             args := [some BufferName.clBufferA, some BufferName.clBufferB,
               some BufferName.clOutput] } :=
  ⟨rfl, (arguments_bound_at_launch (demoEnv 0) cpuArrayA cpuArrayB 10 rfl).2.2.2 rfl⟩

/-- C9: no read-only buffer is written by device code. The only parameter
`parallel_add` stores to is `z`, at position 2, and it loads from `y` and
`x`, at positions 1 and 0; the buffers created read-only are `clBufferA` and
`clBufferB`, bound at positions 0 and 1, and the buffer bound at position 2 is
`clOutput`, created write-only; after the launch the two read-only buffers
hold what they held at creation; and the host reads a buffer once, `clOutput`,
after the only launch, with a blocking read. -/
theorem read_only_buffers_not_written {α : Type} [Add α] [Zero α] (env : Env α) (a b : List α)
    (l : Nat) (ha : a.length = numElements) (hb : b.length = numElements)
    (hfin : (mainWith env a b l).finished = true) :
    parallel_add.storedParams = [2] ∧ parallel_add.loadedParams = [1, 0] ∧
    (mainWith env a b l).trace.filterMap Event.allocation =
      [(BufferName.clBufferA, Access.readOnly, numElements * sizeof_cl_int),
       (BufferName.clBufferB, Access.readOnly, numElements * sizeof_cl_int),
       (BufferName.clOutput, Access.writeOnly, numElements * sizeof_cl_int)] ∧
    (mainWith env a b l).trace.filterMap Event.binding =
      [(0, BufferName.clBufferA), (1, BufferName.clBufferB), (2, BufferName.clOutput)] ∧
    (mainWith env a b l).mem BufferName.clBufferA =
      createBuffers env a b BufferName.clBufferA ∧
    (mainWith env a b l).mem BufferName.clBufferB =
      createBuffers env a b BufferName.clBufferB ∧
    (∃ pre post, (mainWith env a b l).trace =
        pre ++ Event.enqueueNDRangeKernel numElements l :: post ∧
      pre.filterMap Event.launch = [] ∧ post.filterMap Event.launch = [] ∧
      pre.filterMap Event.hostRead = [] ∧
      post.filterMap Event.hostRead =
        [(BufferName.clOutput, true, 0, numElements * sizeof_cl_float)]) := by
  obtain ⟨pre, c, ht, hal, hbi, hla, hre, -, hc⟩ := finished_run_split env a b l hfin
  obtain ⟨hA, hB, -⟩ := createBuffers_eq env a b ha hb
  have hmem : (mainWith env a b l).mem BufferName.clBufferA =
        createBuffers env a b BufferName.clBufferA ∧
      (mainWith env a b l).mem BufferName.clBufferB =
        createBuffers env a b BufferName.clBufferB := by
    rw [(mainWith_of_finished env a b l hfin).2.1]
    by_cases hbuild : env.buildStatus = CL_SUCCESS
    · by_cases hbad : l = 0 ∨ numElements % l ≠ 0
      · rw [(compute_invalid_size env a b l ha hb hbuild hbad).2.2.2]
        exact ⟨rfl, rfl⟩
      · obtain ⟨-, -, -, h1, h2, -⟩ :=
          compute_built env a b l ha hb hbuild (divisors_of_ten l hbad)
        exact ⟨h1.trans hA.symm, h2.trans hB.symm⟩
    · rw [(compute_failed env a b l ha hb hbuild).2.2.2]
      exact ⟨rfl, rfl⟩
  refine ⟨rfl, rfl, ?_, ?_, hmem.1, hmem.2, pre, _, ht, hla, ?_, hre, ?_⟩
  · simp [ht, hal, List.filterMap_append, Event.allocation, allocation_console hc]
  · simp [ht, hbi, List.filterMap_append, Event.binding, binding_console hc]
  · simp [List.filterMap_append, Event.launch, launch_console hc]
  · simp [List.filterMap_append, Event.hostRead, hostRead_console hc]

/-- Witness of C9: the run of `main` with one platform, one device, the user
typing `1` twice and a successful build. -/
theorem read_only_buffers_not_written_witness :
    cpuArrayA.length = numElements ∧ cpuArrayB.length = numElements ∧
    (main (demoEnv 0)).finished = true ∧
    (main (demoEnv 0)).mem BufferName.clBufferA =
      createBuffers (demoEnv 0) cpuArrayA cpuArrayB BufferName.clBufferA :=
  ⟨rfl, rfl, rfl,
    (read_only_buffers_not_written (demoEnv 0) cpuArrayA cpuArrayB 10 rfl rfl rfl).2.2.2.2.1⟩

/-- C10: the byte sizes of the buffer lifecycle agree. Each of the three
buffers is created with `numElements * sizeof(cl_int) = 40` bytes, the byte
length of a host array of ten `float`s, so no buffer creation reports a size
mismatch and each buffer holds ten elements; the readback asks for
`numElements * sizeof(cl_float) = 40` bytes from offset 0, which is accepted
and fills the ten elements of `cpuOutput`; and every work-item id of the
launch is below 10, inside all three buffers. -/
theorem buffer_sizes_agree {α : Type} [Add α] [Zero α] (env : Env α) (a b : List α)
    (ha : a.length = numElements) (hb : b.length = numElements)
    (hfin : (mainWith env a b 10).finished = true) :
    numElements * sizeof_cl_int = 40 ∧ numElements * sizeof_cl_float = 40 ∧
    a.length * sizeof_float = 40 ∧ b.length * sizeof_float = 40 ∧
    cpuArrayA.length * sizeof_float = 40 ∧ cpuArrayB.length * sizeof_float = 40 ∧
    (List.replicate numElements (0 : α)).length * sizeof_float = 40 ∧
    (mainWith env a b 10).trace.filterMap Event.allocation =
      [(BufferName.clBufferA, Access.readOnly, 40), (BufferName.clBufferB, Access.readOnly, 40),
       (BufferName.clOutput, Access.writeOnly, 40)] ∧
    (mainWith env a b 10).trace.filterMap Event.hostRead =
      [(BufferName.clOutput, true, 0, 40)] ∧
    (mainWith env a b 10).trace.filterMap Event.launch = [(10, 10)] ∧
    (∀ bn, ∃ buf, (mainWith env a b 10).mem bn = some buf ∧ buf.sizeBytes = 40 ∧
      buf.data.length = numElements) ∧
    (∀ i ∈ workItems numElements 10, i < numElements ∧ (i + 1) * sizeof_float ≤ 40) ∧
    (mainWith env a b 10).readStatus = some CL_SUCCESS ∧
    (∃ out, (mainWith env a b 10).cpuOutput = some out ∧ out.length = numElements) := by
  obtain ⟨pre, c, ht, hal, -, hla, hre, -, hc⟩ := finished_run_split env a b 10 hfin
  obtain ⟨-, hM, -, hR, hC⟩ := mainWith_of_finished env a b 10 hfin
  obtain ⟨hA, hB, hO⟩ := createBuffers_eq env a b ha hb
  have hstate : (∀ bn, ∃ buf, (compute env a b 10).mem bn = some buf ∧ buf.sizeBytes = 40 ∧
        buf.data.length = numElements) ∧
      (compute env a b 10).readStatus = some CL_SUCCESS ∧
      (∃ out, (compute env a b 10).cpuOutput = some out ∧ out.length = numElements) := by
    by_cases hbuild : env.buildStatus = CL_SUCCESS
    · obtain ⟨-, h2, h3, h4, h5, h6⟩ := compute_built env a b 10 ha hb hbuild (by simp)
      refine ⟨?_, h2, _, h3, by simp [ha, hb]⟩
      intro bn
      cases bn
      · exact ⟨_, h4, rfl, ha⟩
      · exact ⟨_, h5, rfl, hb⟩
      · exact ⟨_, h6, rfl, by simp [ha, hb]⟩
    · obtain ⟨-, h2, h3, h4⟩ := compute_failed env a b 10 ha hb hbuild
      refine ⟨?_, h2, _, h3, by simp [numElements]⟩
      intro bn
      rw [h4]
      cases bn
      · exact ⟨_, hA, rfl, ha⟩
      · exact ⟨_, hB, rfl, hb⟩
      · exact ⟨_, hO, rfl, by simp [numElements]⟩
  refine ⟨rfl, rfl, by rw [ha]; rfl, by rw [hb]; rfl, rfl, rfl, by simp [numElements, sizeof_float],
    ?_, ?_, ?_, ?_, by decide, hR.trans hstate.2.1, ?_⟩
  · simp [ht, hal, List.filterMap_append, Event.allocation, allocation_console hc,
      numElements, sizeof_cl_int]
  · simp [ht, hre, List.filterMap_append, Event.hostRead, hostRead_console hc,
      numElements, sizeof_cl_float]
  · simp [ht, hla, List.filterMap_append, Event.launch, launch_console hc, numElements]
  · intro bn
    rw [hM]
    exact hstate.1 bn
  · rw [hC]
    exact hstate.2.2

/-- Witness of C10: the run of `main` with one platform, one device, the user
typing `1` twice and a successful build. -/
theorem buffer_sizes_agree_witness :
    cpuArrayA.length = numElements ∧ cpuArrayB.length = numElements ∧
    (main (demoEnv 0)).finished = true ∧
    (main (demoEnv 0)).trace.filterMap Event.allocation =
      [(BufferName.clBufferA, Access.readOnly, 40), (BufferName.clBufferB, Access.readOnly, 40),
       (BufferName.clOutput, Access.writeOnly, 40)] ∧
    (main (demoEnv 0)).readStatus = some CL_SUCCESS :=
  have h := buffer_sizes_agree (demoEnv 0) cpuArrayA cpuArrayB rfl rfl rfl
  ⟨rfl, rfl, rfl, h.2.2.2.2.2.2.2.1, h.2.2.2.2.2.2.2.2.2.2.2.2.1⟩

end OpenCLTutorial
